import Mathlib

set_option linter.unusedSectionVars false

/-!
Shallow embedding of the OrbitControls camera controller
(src/src/OrbitControls.ts, primary version) together with the three.js
math primitives it uses (Vector2/Vector3/Quaternion/Spherical from the
external math library, embedded per their documented semantics).

The embedding is parametric over a linear ordered field K and over a
structure Ops K holding the transcendental operations of the host math
library (Math.sqrt, Math.acos, Math.atan2, Math.sin, Math.cos, Math.tan,
Math.pow) plus the camera lookAt orientation function (the camera object
is an external collaborator; the controller only ever compares the
quaternions it produces, so it enters the model as an abstract function
from (position, target) to a quaternion).  The camera up vector is the
repository default (0, 1, 0), so the up-correction quaternion computed
at construction is the identity and offsets are used unrotated.

JavaScript numbers are modelled exactly by K; a TypeError thrown by a
handler (dereferencing an undefined pointer entry) is modelled by the
handler returning Option.none.
-/

namespace Orbit

/-- Interaction modes: the STATE constants of OrbitControls. -/
inductive GState where
  | NONE
  | ROTATE
  | DOLLY
  | PAN
  | TOUCH_ROTATE
  | TOUCH_PAN
  | TOUCH_DOLLY_PAN
  | TOUCH_DOLLY_ROTATE
deriving DecidableEq

/-- The pointerType field of a PointerEvent (touch vs mouse-like). -/
inductive PtrType where
  | touch
  | mouse
deriving DecidableEq

/-- MOUSE button action constants from three.js. -/
inductive MouseCfg where
  | ROTATE
  | DOLLY
  | PAN
deriving DecidableEq

/-- TOUCH gesture constants from three.js. -/
inductive TouchCfg where
  | ROTATE
  | PAN
  | DOLLY_PAN
  | DOLLY_ROTATE
deriving DecidableEq

/-- three.js Vector2. -/
structure V2 (K : Type) where
  x : K
  y : K
deriving DecidableEq

/-- three.js Vector3. -/
structure V3 (K : Type) where
  x : K
  y : K
  z : K
deriving DecidableEq

/-- three.js Quaternion (only construction and dot products are used). -/
structure Quat (K : Type) where
  x : K
  y : K
  z : K
  w : K
deriving DecidableEq

/-- three.js Spherical: radius, polar angle phi, azimuth angle theta. -/
structure Spherical (K : Type) where
  radius : K
  phi : K
  theta : K
deriving DecidableEq

/-- The fields of a PointerEvent the controller reads. -/
structure PtrEvent (K : Type) where
  pointerId : Nat
  pointerType : PtrType
  pageX : K
  pageY : K
  clientX : K
  clientY : K
  button : Nat
  ctrlKey : Bool
  metaKey : Bool
  shiftKey : Bool
deriving DecidableEq

/-- The host math library operations (Math.*) and the external camera's
lookAt orientation function. -/
structure Ops (K : Type) where
  pi : K
  sqrt : K → K
  acos : K → K
  atan2 : K → K → K
  sin : K → K
  cos : K → K
  tan : K → K
  pow : K → K → K
  lookQuat : V3 K → V3 K → Quat K

section Defs

variable {K : Type} [LinearOrderedField K] [DecidableEq K]

/-- Vector3 addition. -/
def v3add (a b : V3 K) : V3 K := ⟨a.x + b.x, a.y + b.y, a.z + b.z⟩

/-- Vector3 subtraction. -/
def v3sub (a b : V3 K) : V3 K := ⟨a.x - b.x, a.y - b.y, a.z - b.z⟩

/-- Vector3 scalar multiple. -/
def v3smul (c : K) (a : V3 K) : V3 K := ⟨c * a.x, c * a.y, c * a.z⟩

/-- Vector3 dot product. -/
def v3dot (a b : V3 K) : K := a.x * b.x + a.y * b.y + a.z * b.z

/-- Vector3 cross product (three.js crossVectors). -/
def v3cross (a b : V3 K) : V3 K :=
  ⟨a.y * b.z - a.z * b.y, a.z * b.x - a.x * b.z, a.x * b.y - a.y * b.x⟩

/-- three.js distanceToSquared. -/
def dist2 (a b : V3 K) : K :=
  (a.x - b.x) * (a.x - b.x) + (a.y - b.y) * (a.y - b.y) + (a.z - b.z) * (a.z - b.z)

/-- three.js Quaternion.dot. -/
def qdot (a b : Quat K) : K := a.x * b.x + a.y * b.y + a.z * b.z + a.w * b.w

/-- The zero vector (new Vector3()). -/
def v3zero : V3 K := ⟨0, 0, 0⟩

/-- The default camera up vector (0, 1, 0). -/
def upVec : V3 K := ⟨0, 1, 0⟩

/-- Column 0 of the rotation matrix of a unit quaternion
(three.js Matrix4.makeRotationFromQuaternion), used by panLeft. -/
def quatCol0 (q : Quat K) : V3 K :=
  ⟨1 - 2 * (q.y * q.y + q.z * q.z), 2 * (q.x * q.y + q.z * q.w), 2 * (q.x * q.z - q.y * q.w)⟩

/-- Column 1 of the rotation matrix of a unit quaternion, used by panUp. -/
def quatCol1 (q : Quat K) : V3 K :=
  ⟨2 * (q.x * q.y - q.z * q.w), 1 - 2 * (q.x * q.x + q.z * q.z), 2 * (q.y * q.z + q.x * q.w)⟩

/-- OrbitControls.EPS = 0.000001. -/
def EPS : K := 1 / 1000000

/-- three.js Spherical.setFromVector3: radius is the vector length; for a
nonzero vector, theta = atan2(x, z) and phi = acos(clamp(y / radius, -1, 1)). -/
def sphericalFromV3 (ops : Ops K) (v : V3 K) : Spherical K :=
  let radius := ops.sqrt (v.x * v.x + v.y * v.y + v.z * v.z)
  if radius = 0 then ⟨0, 0, 0⟩
  else ⟨radius, ops.acos (max (-1) (min 1 (v.y / radius))), ops.atan2 v.x v.z⟩

/-- three.js Vector3.setFromSpherical. -/
def v3FromSpherical (ops : Ops K) (s : Spherical K) : V3 K :=
  let sinPhiRadius := ops.sin s.phi * s.radius
  ⟨sinPhiRadius * ops.sin s.theta, ops.cos s.phi * s.radius, sinPhiRadius * ops.cos s.theta⟩

/-- Normalization of one finite azimuth bound in update():
add TWO_PI if below -PI, subtract TWO_PI if above PI. -/
def normAngle (piK a : K) : K :=
  if a < -piK then a + 2 * piK else if piK < a then a - 2 * piK else a

/-- The azimuth (theta) restriction step of update(): applied only when
both bounds are finite (finite bounds are modelled as some). -/
def azimuthClamp (piK : K) (mino maxo : Option K) (θ : K) : K :=
  match mino, maxo with
  | some mn, some mx =>
    let m := normAngle piK mn
    let M := normAngle piK mx
    if m ≤ M then max m (min M θ)
    else if (m + M) / 2 < θ then max m θ else min M θ
  | _, _ => θ

/-- The polar (phi) restriction step of update(): clamp to the configured
bounds, then Spherical.makeSafe clamps into [EPS, PI - EPS]. -/
def polarPipeline (lo hi piK φ : K) : K :=
  max EPS (min (piK - EPS) (max lo (min hi φ)))

/-- The radius restriction step of update(); maxDistance = Infinity is
modelled as none (Math.min(Infinity, r) = r). -/
def clampRadius (minD : K) (maxD : Option K) (r : K) : K :=
  max minD (match maxD with | none => r | some m => min m r)

/-- The full controller state: the externally owned camera's fields the
controller reads or writes, the configuration fields, and the internal
gesture-tracking state. -/
structure CtrlState (K : Type) where
  -- camera (external): PerspectiveCamera vs OrthographicCamera
  isPerspective : Bool
  position : V3 K
  quaternionCam : Quat K
  zoom : K
  fov : K
  left : K
  right : K
  top : K
  bottom : K
  -- canvas (external input surface)
  clientWidth : K
  clientHeight : K
  -- configuration fields
  enabled : Bool
  target : V3 K
  minDistance : K
  maxDistance : Option K
  minZoom : K
  maxZoom : Option K
  minPolarAngle : K
  maxPolarAngle : K
  minAzimuthAngle : Option K
  maxAzimuthAngle : Option K
  enableDamping : Bool
  dampingFactor : K
  enableZoom : Bool
  zoomSpeed : K
  enableRotate : Bool
  rotateSpeed : K
  enablePan : Bool
  panSpeed : K
  screenSpacePanning : Bool
  autoRotate : Bool
  autoRotateSpeed : K
  mouseLeft : MouseCfg
  mouseMiddle : MouseCfg
  mouseRight : MouseCfg
  touchOne : TouchCfg
  touchTwo : TouchCfg
  -- internal state
  state : GState
  spherical : Spherical K
  sphericalDelta : Spherical K
  scale : K
  panOffset : V3 K
  zoomChanged : Bool
  rotateStart : V2 K
  rotateEnd : V2 K
  rotateDelta : V2 K
  panStart : V2 K
  panEnd : V2 K
  panDelta : V2 K
  dollyStart : V2 K
  dollyEnd : V2 K
  dollyDelta : V2 K
  pointers : List (PtrEvent K)
  pointerPositions : List (Nat × V2 K)
  lastPosition : V3 K
  lastQuaternion : Quat K
deriving DecidableEq

/-- The sphericalDelta actually applied by update(): auto-rotate injects an
extra azimuth delta of (TWO_PI / 3600) * autoRotateSpeed when the mode is NONE. -/
def updAutoDelta (ops : Ops K) (st : CtrlState K) : Spherical K :=
  if st.autoRotate = true ∧ st.state = GState.NONE then
    { st.sphericalDelta with
      theta := st.sphericalDelta.theta - 2 * ops.pi / 3600 * st.autoRotateSpeed }
  else st.sphericalDelta

/-- The damping factor applied to pending deltas inside update(). -/
def updFactor (st : CtrlState K) : K :=
  if st.enableDamping = true then st.dampingFactor else 1

/-- The spherical coordinates of the camera offset re-derived from the live
camera position at the start of update() (up-correction quaternion = identity). -/
def updSpherical0 (ops : Ops K) (st : CtrlState K) : Spherical K :=
  sphericalFromV3 ops (v3sub st.position st.target)

/-- The azimuth angle after delta application and restriction in update(). -/
def updTheta (ops : Ops K) (st : CtrlState K) : K :=
  azimuthClamp ops.pi st.minAzimuthAngle st.maxAzimuthAngle
    ((updSpherical0 ops st).theta + (updAutoDelta ops st).theta * updFactor st)

/-- The polar angle after delta application, restriction and makeSafe in update(). -/
def updPhi (ops : Ops K) (st : CtrlState K) : K :=
  polarPipeline st.minPolarAngle st.maxPolarAngle ops.pi
    ((updSpherical0 ops st).phi + (updAutoDelta ops st).phi * updFactor st)

/-- The radius after scaling and restriction in update(). -/
def updRadius (ops : Ops K) (st : CtrlState K) : K :=
  clampRadius st.minDistance st.maxDistance ((updSpherical0 ops st).radius * st.scale)

/-- The spherical position written back by update(). -/
def updSpherical (ops : Ops K) (st : CtrlState K) : Spherical K :=
  ⟨updRadius ops st, updPhi ops st, updTheta ops st⟩

/-- The target after folding in the pending pan offset in update(). -/
def updTarget (st : CtrlState K) : V3 K :=
  if st.enableDamping = true then v3add st.target (v3smul st.dampingFactor st.panOffset)
  else v3add st.target st.panOffset

/-- The camera position reconstructed by update(). -/
def updPosition (ops : Ops K) (st : CtrlState K) : V3 K :=
  v3add (updTarget st) (v3FromSpherical ops (updSpherical ops st))

/-- The camera orientation after camera.lookAt(target) in update(). -/
def updQuat (ops : Ops K) (st : CtrlState K) : Quat K :=
  ops.lookQuat (updPosition ops st) (updTarget st)

/-- The pending rotation delta left after update(): decayed by
(1 - dampingFactor) when damping is enabled, zeroed otherwise. -/
def updDelta (ops : Ops K) (st : CtrlState K) : Spherical K :=
  if st.enableDamping = true then
    { updAutoDelta ops st with
      theta := (updAutoDelta ops st).theta * (1 - st.dampingFactor),
      phi := (updAutoDelta ops st).phi * (1 - st.dampingFactor) }
  else ⟨0, 0, 0⟩

/-- The pending pan offset left after update(). -/
def updPan (st : CtrlState K) : V3 K :=
  if st.enableDamping = true then v3smul (1 - st.dampingFactor) st.panOffset
  else v3zero

/-- The change condition of update(): zoom changed, or the camera moved or
rotated by more than EPS (small-angle approximation for the rotation). -/
def updChangedProp (ops : Ops K) (st : CtrlState K) : Prop :=
  st.zoomChanged = true ∨ EPS < dist2 st.lastPosition (updPosition ops st) ∨
    EPS < 8 * (1 - qdot st.lastQuaternion (updQuat ops st))

instance (ops : Ops K) (st : CtrlState K) : Decidable (updChangedProp ops st) := by
  unfold updChangedProp; infer_instance

/-- All the state mutations of update() other than the last*/zoomChanged
bookkeeping of the change branch. -/
def updateBase (ops : Ops K) (st : CtrlState K) : CtrlState K :=
  { st with
    spherical := updSpherical ops st
    sphericalDelta := updDelta ops st
    scale := 1
    panOffset := updPan st
    target := updTarget st
    position := updPosition ops st
    quaternionCam := updQuat ops st }

/-- OrbitControls.update(): returns the new state and the boolean result. -/
def update (ops : Ops K) (st : CtrlState K) : CtrlState K × Bool :=
  if updChangedProp ops st then
    ({ updateBase ops st with
       lastPosition := updPosition ops st
       lastQuaternion := updQuat ops st
       zoomChanged := false }, true)
  else (updateBase ops st, false)

/-- getZoomScale(): 0.95 raised to the zoomSpeed. -/
def getZoomScale (ops : Ops K) (st : CtrlState K) : K :=
  ops.pow (19 / 20) st.zoomSpeed

/-- dolly(dollyScale, dollyOut): multiplies the transient Scale for a
perspective camera, clamps-and-sets zoom (and flags zoomChanged) for an
orthographic one. -/
def dolly (dollyScale : K) (dollyOut : Bool) (st : CtrlState K) : CtrlState K :=
  let dollyFactor := if dollyOut then 1 / dollyScale else dollyScale
  if st.isPerspective then { st with scale := st.scale * dollyFactor }
  else
    { st with
      zoom := max st.minZoom (match st.maxZoom with
        | none => st.zoom / dollyFactor
        | some mz => min mz (st.zoom / dollyFactor))
      zoomChanged := true }

/-- Lookup in the pointerPositions Map (Map.prototype.get). -/
def lookupPos (ps : List (Nat × V2 K)) (pid : Nat) : Option (V2 K) :=
  match ps with
  | [] => none
  | q :: rest => if q.1 = pid then some q.2 else lookupPos rest pid

/-- The map effect of trackPointer: Map.prototype.get followed by either a
set of a fresh entry (key absent) or an in-place mutation of the stored
Vector2 (key present); insertion order is preserved. -/
def setPos (ps : List (Nat × V2 K)) (pid : Nat) (v : V2 K) : List (Nat × V2 K) :=
  match lookupPos ps pid with
  | some _ => ps.map (fun q => if q.1 = pid then (pid, v) else q)
  | none => ps ++ [(pid, v)]

/-- Map.prototype.delete for the pointerPositions map. -/
def erasePos (ps : List (Nat × V2 K)) (pid : Nat) : List (Nat × V2 K) :=
  match ps with
  | [] => []
  | q :: rest => if q.1 = pid then erasePos rest pid else q :: erasePos rest pid

/-- The splice-based removal in removePointer: delete the first array entry
whose pointerId matches. -/
def removeFirstById (ps : List (PtrEvent K)) (pid : Nat) : List (PtrEvent K) :=
  match ps with
  | [] => []
  | p :: rest => if p.pointerId = pid then rest else p :: removeFirstById rest pid

/-- trackPointer(pointerId, x, y): upsert into the pointerPositions map. -/
def trackPointer (pid : Nat) (x y : K) (st : CtrlState K) : CtrlState K :=
  { st with pointerPositions := setPos st.pointerPositions pid ⟨x, y⟩ }

/-- removePointer(pointerId): delete from the map and splice the first
matching entry out of the pointers array. -/
def removePointer (pid : Nat) (st : CtrlState K) : CtrlState K :=
  { st with
    pointerPositions := erasePos st.pointerPositions pid
    pointers := removeFirstById st.pointers pid }

/-- getSecondPointerPosition: reads pointers[0].pointerId and then
pointers[pIndex].pointerId before the map lookup; in JavaScript a missing
array entry is undefined and the property access throws a TypeError.  A
none result therefore means that every caller (which dereferences the
result after a non-null assertion) throws. -/
def getSecondPointerPosition (st : CtrlState K) (pid : Nat) : Option (V2 K) :=
  match st.pointers.get? 0 with
  | none => none
  | some p0 =>
    match st.pointers.get? (if pid = p0.pointerId then 1 else 0) with
    | none => none
    | some p => lookupPos st.pointerPositions p.pointerId

/-- handleMouseMoveRotate(x, y): accumulate the rotation delta scaled by
rotateSpeed, normalized by the canvas clientHeight for both axes. -/
def handleMouseMoveRotate (ops : Ops K) (x y : K) (st : CtrlState K) : CtrlState K :=
  let rEnd : V2 K := ⟨x, y⟩
  let rDelta : V2 K :=
    ⟨(rEnd.x - st.rotateStart.x) * st.rotateSpeed, (rEnd.y - st.rotateStart.y) * st.rotateSpeed⟩
  { st with
    sphericalDelta :=
      { st.sphericalDelta with
        theta := st.sphericalDelta.theta - 2 * ops.pi * rDelta.x / st.clientHeight
        phi := st.sphericalDelta.phi - 2 * ops.pi * rDelta.y / st.clientHeight }
    rotateEnd := rEnd
    rotateDelta := rDelta
    rotateStart := rEnd }

/-- handleMouseMoveDolly(x, y). -/
def handleMouseMoveDolly (ops : Ops K) (x y : K) (st : CtrlState K) : CtrlState K :=
  let dEnd : V2 K := ⟨x, y⟩
  let dDelta : V2 K := ⟨dEnd.x - st.dollyStart.x, dEnd.y - st.dollyStart.y⟩
  let st1 := if dDelta.y ≠ 0 then dolly (getZoomScale ops st) (0 < dDelta.y) st else st
  { st1 with dollyEnd := dEnd, dollyDelta := dDelta, dollyStart := dEnd }

/-- panLeft(distance, objectMatrix): add -distance times column 0 of the
camera matrix to the pending pan offset. -/
def panLeft (dist : K) (st : CtrlState K) : CtrlState K :=
  { st with panOffset := v3add st.panOffset (v3smul (-dist) (quatCol0 st.quaternionCam)) }

/-- panUp(distance, objectMatrix): column 1 when screenSpacePanning, else
the cross product of camera.up with column 0. -/
def panUp (dist : K) (st : CtrlState K) : CtrlState K :=
  let v :=
    if st.screenSpacePanning then quatCol1 st.quaternionCam
    else v3cross upVec (quatCol0 st.quaternionCam)
  { st with panOffset := v3add st.panOffset (v3smul dist v) }

/-- pan(deltaX, deltaY, width, height): perspective scales by the
target distance times tan(fov/2) normalized by the canvas height,
orthographic by the frustum extents over zoom. -/
def pan (ops : Ops K) (deltaX deltaY width height : K) (st : CtrlState K) : CtrlState K :=
  if st.isPerspective then
    let offset := v3sub st.position st.target
    let targetDist := ops.sqrt (v3dot offset offset) * ops.tan (st.fov / 2 * ops.pi / 180)
    let distFactor := 2 * targetDist / height
    panUp (deltaY * distFactor) (panLeft (deltaX * distFactor) st)
  else
    panUp (deltaY * (st.top - st.bottom) / st.zoom / height)
      (panLeft (deltaX * (st.right - st.left) / st.zoom / width) st)

/-- handleMouseMovePan(x, y). -/
def handleMouseMovePan (ops : Ops K) (x y : K) (st : CtrlState K) : CtrlState K :=
  let pEnd : V2 K := ⟨x, y⟩
  let pDelta : V2 K :=
    ⟨(pEnd.x - st.panStart.x) * st.panSpeed, (pEnd.y - st.panStart.y) * st.panSpeed⟩
  let st1 := pan ops pDelta.x pDelta.y st.clientWidth st.clientHeight st
  { st1 with panEnd := pEnd, panDelta := pDelta, panStart := pEnd }

/-- handleTouchStartTransform: the single pointer position, or the midpoint
of the first two pointers.  The empty case is unreachable from its call
sites (guarded by pointers.length being 1 or 2). -/
def transformStartPoint (st : CtrlState K) : V2 K :=
  match st.pointers with
  | [] => ⟨0, 0⟩
  | [p] => ⟨p.pageX, p.pageY⟩
  | p0 :: p1 :: _ => ⟨(p0.pageX + p1.pageX) / 2, (p0.pageY + p1.pageY) / 2⟩

/-- handleTouchStartDolly: record the initial inter-pointer distance.  Only
called with exactly two pointers; other cases are unreachable. -/
def handleTouchStartDolly (ops : Ops K) (st : CtrlState K) : CtrlState K :=
  match st.pointers with
  | p0 :: p1 :: _ =>
    let dx := p0.pageX - p1.pageX
    let dy := p0.pageY - p1.pageY
    { st with dollyStart := ⟨0, ops.sqrt (dx * dx + dy * dy)⟩ }
  | _ => st

/-- handleTouchMoveRotate: single pointer uses the event position, two
pointers use the midpoint with the other tracked pointer (none = crash). -/
def handleTouchMoveRotate (ops : Ops K) (pid : Nat) (x y : K) (st : CtrlState K) :
    Option (CtrlState K) :=
  let rEnd? : Option (V2 K) :=
    if st.pointers.length = 1 then some ⟨x, y⟩
    else
      match getSecondPointerPosition st pid with
      | none => none
      | some p => some ⟨(x + p.x) / 2, (y + p.y) / 2⟩
  match rEnd? with
  | none => none
  | some rEnd =>
    let rDelta : V2 K :=
      ⟨(rEnd.x - st.rotateStart.x) * st.rotateSpeed, (rEnd.y - st.rotateStart.y) * st.rotateSpeed⟩
    some { st with
      sphericalDelta :=
        { st.sphericalDelta with
          theta := st.sphericalDelta.theta - 2 * ops.pi * rDelta.x / st.clientHeight
          phi := st.sphericalDelta.phi - 2 * ops.pi * rDelta.y / st.clientHeight }
      rotateEnd := rEnd
      rotateDelta := rDelta
      rotateStart := rEnd }

/-- handleTouchMovePan: same midpoint logic as the rotate handler. -/
def handleTouchMovePan (ops : Ops K) (pid : Nat) (x y : K) (st : CtrlState K) :
    Option (CtrlState K) :=
  let pEnd? : Option (V2 K) :=
    if st.pointers.length = 1 then some ⟨x, y⟩
    else
      match getSecondPointerPosition st pid with
      | none => none
      | some p => some ⟨(x + p.x) / 2, (y + p.y) / 2⟩
  match pEnd? with
  | none => none
  | some pEnd =>
    let pDelta : V2 K :=
      ⟨(pEnd.x - st.panStart.x) * st.panSpeed, (pEnd.y - st.panStart.y) * st.panSpeed⟩
    let st1 := pan ops pDelta.x pDelta.y st.clientWidth st.clientHeight st
    some { st1 with panEnd := pEnd, panDelta := pDelta, panStart := pEnd }

/-- handleTouchMoveDolly: always queries the second pointer position
(without a single-pointer fallback) and dollies out by the ratio of
successive pinch distances raised to zoomSpeed. -/
def handleTouchMoveDolly (ops : Ops K) (pid : Nat) (x y : K) (st : CtrlState K) :
    Option (CtrlState K) :=
  match getSecondPointerPosition st pid with
  | none => none
  | some p =>
    let dx := x - p.x
    let dy := y - p.y
    let distance := ops.sqrt (dx * dx + dy * dy)
    let dEnd : V2 K := ⟨0, distance⟩
    let dDelta : V2 K := ⟨0, ops.pow (dEnd.y / st.dollyStart.y) st.zoomSpeed⟩
    let st1 := dolly dDelta.y true st
    some { st1 with dollyEnd := dEnd, dollyDelta := dDelta, dollyStart := dEnd }

/-- onMouseDown: map the button through the mouse-button configuration and
select ROTATE / DOLLY / PAN (modifier keys swap rotate and pan). -/
def onMouseDown (ev : PtrEvent K) (st : CtrlState K) : CtrlState K :=
  let mouseAction : Option MouseCfg :=
    match ev.button with
    | 0 => some st.mouseLeft
    | 1 => some st.mouseMiddle
    | 2 => some st.mouseRight
    | _ => none
  match mouseAction with
  | some MouseCfg.DOLLY =>
    if st.enableZoom = false then st
    else { st with dollyStart := ⟨ev.clientX, ev.clientY⟩, state := GState.DOLLY }
  | some MouseCfg.ROTATE =>
    if ev.ctrlKey = true ∨ ev.metaKey = true ∨ ev.shiftKey = true then
      if st.enablePan = false then st
      else { st with panStart := ⟨ev.clientX, ev.clientY⟩, state := GState.PAN }
    else
      if st.enableRotate = false then st
      else { st with rotateStart := ⟨ev.clientX, ev.clientY⟩, state := GState.ROTATE }
  | some MouseCfg.PAN =>
    if ev.ctrlKey = true ∨ ev.metaKey = true ∨ ev.shiftKey = true then
      if st.enableRotate = false then st
      else { st with rotateStart := ⟨ev.clientX, ev.clientY⟩, state := GState.ROTATE }
    else
      if st.enablePan = false then st
      else { st with panStart := ⟨ev.clientX, ev.clientY⟩, state := GState.PAN }
  | none => { st with state := GState.NONE }

/-- onTouchStart: select the touch mode from the number of active pointers
and the touch gesture configuration, recording gesture start data. -/
def onTouchStart (ops : Ops K) (ev : PtrEvent K) (st : CtrlState K) : CtrlState K :=
  let st1 := trackPointer ev.pointerId ev.pageX ev.pageY st
  if st1.pointers.length = 1 ∧ st1.touchOne = TouchCfg.ROTATE then
    if st1.enableRotate = false then st1
    else { st1 with rotateStart := transformStartPoint st1, state := GState.TOUCH_ROTATE }
  else if st1.pointers.length = 1 ∧ st1.touchOne = TouchCfg.PAN then
    if st1.enablePan = false then st1
    else { st1 with panStart := transformStartPoint st1, state := GState.TOUCH_PAN }
  else if st1.pointers.length = 2 ∧ st1.touchTwo = TouchCfg.DOLLY_PAN then
    if st1.enableZoom = false ∧ st1.enablePan = false then st1
    else
      let st2 := if st1.enableZoom = true then handleTouchStartDolly ops st1 else st1
      let st3 :=
        if st2.enablePan = true then { st2 with panStart := transformStartPoint st2 } else st2
      { st3 with state := GState.TOUCH_DOLLY_PAN }
  else if st1.pointers.length = 2 ∧ st1.touchTwo = TouchCfg.DOLLY_ROTATE then
    if st1.enableZoom = false ∧ st1.enableRotate = false then st1
    else
      let st2 := if st1.enableZoom = true then handleTouchStartDolly ops st1 else st1
      let st3 :=
        if st2.enableRotate = true then { st2 with rotateStart := transformStartPoint st2 }
        else st2
      { st3 with state := GState.TOUCH_DOLLY_ROTATE }
  else { st1 with state := GState.NONE }

/-- onPointerDown: push the event into the pointers array (unconditionally)
and dispatch to the touch or mouse start handler. -/
def onPointerDown (ops : Ops K) (ev : PtrEvent K) (st : CtrlState K) : CtrlState K :=
  if st.enabled = false then st
  else
    let st1 := { st with pointers := st.pointers ++ [ev] }
    if ev.pointerType = PtrType.touch then onTouchStart ops ev st1 else onMouseDown ev st1

/-- onPointerUp: reset the mode to NONE (unconditionally) and remove the
pointer; listener/capture bookkeeping is an out-of-scope side effect. -/
def onPointerUp (ev : PtrEvent K) (st : CtrlState K) : CtrlState K :=
  if st.enabled = false then st
  else removePointer ev.pointerId { st with state := GState.NONE }

/-- onPointerCancel: remove the pointer only (no enabled guard, no mode
change). -/
def onPointerCancel (ev : PtrEvent K) (st : CtrlState K) : CtrlState K :=
  removePointer ev.pointerId st

/-- onMouseMove: dispatch on the current mode and run update() after the
handler (the boolean result is discarded). -/
def onMouseMove (ops : Ops K) (x y : K) (st : CtrlState K) : CtrlState K :=
  match st.state with
  | GState.ROTATE =>
    if st.enableRotate = false then st
    else (update ops (handleMouseMoveRotate ops x y st)).1
  | GState.DOLLY =>
    if st.enableZoom = false then st
    else (update ops (handleMouseMoveDolly ops x y st)).1
  | GState.PAN =>
    if st.enablePan = false then st
    else (update ops (handleMouseMovePan ops x y st)).1
  | _ => st

/-- onTouchMove: track the pointer, dispatch on the current mode, and run
update() after the handlers; none models a thrown TypeError. -/
def onTouchMove (ops : Ops K) (pid : Nat) (x y : K) (st : CtrlState K) :
    Option (CtrlState K) :=
  let st1 := trackPointer pid x y st
  match st1.state with
  | GState.TOUCH_ROTATE =>
    if st1.enableRotate = false then some st1
    else
      match handleTouchMoveRotate ops pid x y st1 with
      | none => none
      | some s => some (update ops s).1
  | GState.TOUCH_PAN =>
    if st1.enablePan = false then some st1
    else
      match handleTouchMovePan ops pid x y st1 with
      | none => none
      | some s => some (update ops s).1
  | GState.TOUCH_DOLLY_PAN =>
    if st1.enableZoom = false ∧ st1.enablePan = false then some st1
    else
      match (if st1.enableZoom = true then handleTouchMoveDolly ops pid x y st1 else some st1) with
      | none => none
      | some s2 =>
        match (if s2.enablePan = true then handleTouchMovePan ops pid x y s2 else some s2) with
        | none => none
        | some s3 => some (update ops s3).1
  | GState.TOUCH_DOLLY_ROTATE =>
    if st1.enableZoom = false ∧ st1.enableRotate = false then some st1
    else
      match (if st1.enableZoom = true then handleTouchMoveDolly ops pid x y st1 else some st1) with
      | none => none
      | some s2 =>
        match (if s2.enableRotate = true then handleTouchMoveRotate ops pid x y s2 else some s2) with
        | none => none
        | some s3 => some (update ops s3).1
  | _ => some { st1 with state := GState.NONE }

/-- onPointerMove: dispatch to the touch or mouse move path. -/
def onPointerMove (ops : Ops K) (ev : PtrEvent K) (st : CtrlState K) :
    Option (CtrlState K) :=
  if st.enabled = false then some st
  else if ev.pointerType = PtrType.touch then onTouchMove ops ev.pointerId ev.pageX ev.pageY st
  else some (onMouseMove ops ev.clientX ev.clientY st)

end Defs

/-- A placeholder math backend over the rationals; used for state-machine
facts that do not depend on the transcendental operations. -/
def qOps : Ops ℚ :=
  { pi := 0, sqrt := fun _ => 0, acos := fun _ => 0, atan2 := fun _ _ => 0,
    sin := fun _ => 0, cos := fun _ => 0, tan := fun _ => 0, pow := fun _ _ => 0,
    lookQuat := fun _ _ => ⟨0, 0, 0, 1⟩ }

/-- Math.atan2(y, x) over the reals: the argument of x + y i, valued in
the interval (-PI, PI]. -/
noncomputable def realAtan2 (y x : ℝ) : ℝ := Complex.arg ⟨x, y⟩

/-- The real math backend, parametric in the external camera's lookAt
orientation function L. -/
noncomputable def realOps (L : V3 ℝ → V3 ℝ → Quat ℝ) : Ops ℝ :=
  { pi := Real.pi, sqrt := Real.sqrt, acos := Real.arccos, atan2 := realAtan2,
    sin := Real.sin, cos := Real.cos, tan := Real.tan,
    pow := fun a b => Real.rpow a b, lookQuat := L }

section States

variable {K : Type} [LinearOrderedField K] [DecidableEq K]

/-- A controller state with the source defaults (enabled, all gestures on,
damping and auto-rotate off, default button/touch mappings, unbounded
distance and azimuth).  piK stands for Math.PI (the maxPolarAngle
default) and pos for the camera position. -/
def mkState (piK : K) (pos : V3 K) : CtrlState K :=
  { isPerspective := true, position := pos, quaternionCam := ⟨0, 0, 0, 1⟩,
    zoom := 1, fov := 50, left := -1, right := 1, top := 1, bottom := -1,
    clientWidth := 800, clientHeight := 600,
    enabled := true, target := v3zero,
    minDistance := 0, maxDistance := none, minZoom := 0, maxZoom := none,
    minPolarAngle := 0, maxPolarAngle := piK,
    minAzimuthAngle := none, maxAzimuthAngle := none,
    enableDamping := false, dampingFactor := 1 / 20,
    enableZoom := true, zoomSpeed := 1,
    enableRotate := true, rotateSpeed := 1,
    enablePan := true, panSpeed := 1, screenSpacePanning := true,
    autoRotate := false, autoRotateSpeed := 2,
    mouseLeft := MouseCfg.ROTATE, mouseMiddle := MouseCfg.DOLLY, mouseRight := MouseCfg.PAN,
    touchOne := TouchCfg.ROTATE, touchTwo := TouchCfg.DOLLY_PAN,
    state := GState.NONE,
    spherical := ⟨1, 0, 0⟩, sphericalDelta := ⟨0, 0, 0⟩,
    scale := 1, panOffset := v3zero, zoomChanged := false,
    rotateStart := ⟨0, 0⟩, rotateEnd := ⟨0, 0⟩, rotateDelta := ⟨0, 0⟩,
    panStart := ⟨0, 0⟩, panEnd := ⟨0, 0⟩, panDelta := ⟨0, 0⟩,
    dollyStart := ⟨0, 0⟩, dollyEnd := ⟨0, 0⟩, dollyDelta := ⟨0, 0⟩,
    pointers := [], pointerPositions := [],
    lastPosition := v3zero, lastQuaternion := ⟨0, 0, 0, 1⟩ }

/-- A touch PointerEvent at a page position. -/
def touchEv (pid : Nat) (x y : K) : PtrEvent K :=
  { pointerId := pid, pointerType := PtrType.touch, pageX := x, pageY := y,
    clientX := x, clientY := y, button := 0, ctrlKey := false, metaKey := false,
    shiftKey := false }

end States

section MapLemmas

variable {K : Type} [LinearOrderedField K] [DecidableEq K]

/-- After a delete, the key is gone from the map. -/
theorem lookupPos_erasePos (ps : List (Nat × V2 K)) (pid : Nat) :
    lookupPos (erasePos ps pid) pid = none := by
  induction ps with
  | nil => rfl
  | cons q rest ih =>
    by_cases h : q.1 = pid
    · simpa [erasePos, h] using ih
    · simpa [erasePos, lookupPos, h] using ih

/-- Lookup after the in-place value replacement of an upsert. -/
theorem lookupPos_map_upd (ps : List (Nat × V2 K)) (pid : Nat) (v : V2 K) :
    lookupPos (ps.map (fun q => if q.1 = pid then (pid, v) else q)) pid =
      (lookupPos ps pid).map (fun _ => v) := by
  induction ps with
  | nil => rfl
  | cons q rest ih =>
    by_cases h : q.1 = pid
    · simp [lookupPos, h]
    · simp [lookupPos, h, ih]

/-- Lookup of a freshly appended entry when the key was absent. -/
theorem lookupPos_append_self (ps : List (Nat × V2 K)) (pid : Nat) (v : V2 K)
    (h : lookupPos ps pid = none) : lookupPos (ps ++ [(pid, v)]) pid = some v := by
  induction ps with
  | nil => simp [lookupPos]
  | cons q rest ih =>
    by_cases hq : q.1 = pid
    · simp [lookupPos, hq] at h
    · simp only [lookupPos, if_neg hq] at h
      simpa [lookupPos, hq] using ih h

/-- After an upsert, the key maps to the new value. -/
theorem lookupPos_setPos_self (ps : List (Nat × V2 K)) (pid : Nat) (v : V2 K) :
    lookupPos (setPos ps pid v) pid = some v := by
  unfold setPos
  cases hl : lookupPos ps pid with
  | none => simpa using lookupPos_append_self ps pid v hl
  | some w => simp [lookupPos_map_upd, hl]

/-- The in-place value replacement of an upsert leaves the key list as is. -/
theorem keys_map_upd (ps : List (Nat × V2 K)) (pid : Nat) (v : V2 K) :
    (ps.map (fun q => if q.1 = pid then (pid, v) else q)).map Prod.fst =
      ps.map Prod.fst := by
  induction ps with
  | nil => rfl
  | cons q rest ih =>
    by_cases h : q.1 = pid
    · simp [h, ih]
    · simp [h, ih]

/-- The keys of the map after an upsert: unchanged when the key was
present, the key appended when it was absent. -/
theorem keys_setPos (ps : List (Nat × V2 K)) (pid : Nat) (v : V2 K) :
    (setPos ps pid v).map Prod.fst =
      (match lookupPos ps pid with
       | some _ => ps.map Prod.fst
       | none => ps.map Prod.fst ++ [pid]) := by
  unfold setPos
  cases hl : lookupPos ps pid with
  | none => simp
  | some w => simpa using keys_map_upd ps pid v

/-- A key that lookup misses is not among the keys. -/
theorem not_mem_keys_of_lookupPos_none (ps : List (Nat × V2 K)) (pid : Nat)
    (h : lookupPos ps pid = none) : pid ∉ ps.map Prod.fst := by
  induction ps with
  | nil => simp
  | cons q rest ih =>
    by_cases hq : q.1 = pid
    · simp [lookupPos, hq] at h
    · simp only [lookupPos, if_neg hq] at h
      simp only [List.map_cons, List.mem_cons]
      rintro (rfl | hmem)
      · exact hq rfl
      · exact ih h hmem

/-- The upsert never introduces a duplicate key. -/
theorem nodup_keys_setPos (ps : List (Nat × V2 K)) (pid : Nat) (v : V2 K)
    (hnd : (ps.map Prod.fst).Nodup) : ((setPos ps pid v).map Prod.fst).Nodup := by
  rw [keys_setPos]
  cases hl : lookupPos ps pid with
  | some w => exact hnd
  | none =>
    have hnm := not_mem_keys_of_lookupPos_none ps pid hl
    simpa using List.Nodup.append hnd (List.nodup_singleton pid) (by simpa using hnm)

end MapLemmas

section StateMachineLemmas

variable {K : Type} [LinearOrderedField K] [DecidableEq K]

/-- handleTouchStartDolly only writes dollyStart. -/
theorem handleTouchStartDolly_pointers (ops : Ops K) (st : CtrlState K) :
    (handleTouchStartDolly ops st).pointers = st.pointers := by
  unfold handleTouchStartDolly; split <;> rfl

/-- onTouchStart never changes the pointers array. -/
theorem onTouchStart_pointers (ops : Ops K) (ev : PtrEvent K) (st : CtrlState K) :
    (onTouchStart ops ev st).pointers = st.pointers := by
  unfold onTouchStart
  dsimp only
  repeat' split
  all_goals first
    | rfl
    | (dsimp only; rw [handleTouchStartDolly_pointers]; try rfl)

/-- onMouseDown never changes the pointers array. -/
theorem onMouseDown_pointers (ev : PtrEvent K) (st : CtrlState K) :
    (onMouseDown ev st).pointers = st.pointers := by
  unfold onMouseDown
  dsimp only
  repeat' split
  all_goals rfl

end StateMachineLemmas

section ClaimC1

/-- The state after two touch pointer-down events (ids 1 and 2): mode
TOUCH_DOLLY_PAN with two active pointers. -/
def twoTouchState : CtrlState ℚ :=
  onPointerDown qOps (touchEv 2 10 0) (onPointerDown qOps (touchEv 1 0 0) (mkState 0 ⟨0, 0, 5⟩))

/-- C1 counterexample: lifting one of two touch pointers leaves the set
non-empty yet resets the mode to NONE (so the mode does not return to
NONE only when the set becomes empty, and the gesture does end); and
cancelling both pointers empties the set while the mode stays
TOUCH_DOLLY_PAN (so the mode does not return to NONE when the set becomes
empty via cancel). -/
theorem C1_counterexample :
    ¬ ((onPointerUp (touchEv 2 10 0) twoTouchState).state = GState.NONE ↔
        (onPointerUp (touchEv 2 10 0) twoTouchState).pointers = []) ∧
    ¬ ((onPointerCancel (touchEv 2 10 0) (onPointerCancel (touchEv 1 0 0)
          twoTouchState)).state = GState.NONE ↔
        (onPointerCancel (touchEv 2 10 0) (onPointerCancel (touchEv 1 0 0)
          twoTouchState)).pointers = []) := by
  constructor <;> decide

/-- C1 (amended): on pointer-up the pointer is removed from the pointer
array and the position map and the Interaction Mode is reset to NONE
unconditionally — even when other pointers remain, so the gesture ends
rather than degrading; on pointer-cancel the pointer is removed but the
mode is left unchanged, even when the set becomes empty. -/
theorem C1_pointer_up_cancel {K : Type} [LinearOrderedField K] [DecidableEq K]
    (st : CtrlState K) (ev : PtrEvent K) (hen : st.enabled = true) :
    (onPointerUp ev st).state = GState.NONE ∧
    (onPointerUp ev st).pointers = removeFirstById st.pointers ev.pointerId ∧
    (onPointerUp ev st).pointerPositions = erasePos st.pointerPositions ev.pointerId ∧
    lookupPos (onPointerUp ev st).pointerPositions ev.pointerId = none ∧
    (onPointerCancel ev st).state = st.state ∧
    (onPointerCancel ev st).pointers = removeFirstById st.pointers ev.pointerId ∧
    lookupPos (onPointerCancel ev st).pointerPositions ev.pointerId = none := by
  unfold onPointerUp onPointerCancel removePointer
  simp [hen, lookupPos_erasePos]

/-- C1 witness: the amended behaviour at the concrete two-pointer state. -/
theorem C1_witness :
    twoTouchState.enabled = true ∧
    (onPointerUp (touchEv 2 10 0) twoTouchState).state = GState.NONE := by
  refine ⟨by decide, ?_⟩
  exact (C1_pointer_up_cancel twoTouchState (touchEv 2 10 0) (by decide)).1

end ClaimC1

section ClaimC2

/-- The state reached by: touch 1 down, touch 2 down (mode becomes
TOUCH_DOLLY_PAN), then a pointercancel for pointer 2 — one tracked
pointer remains while the two-finger mode is still active. -/
def cancelledSecondState : CtrlState ℚ :=
  onPointerCancel (touchEv 2 3 4) twoTouchState

/-- C2: with the two-finger dolly-pan mode still active but only one
pointer tracked (reachable because pointer-cancel does not reset the
mode), the next touch move reaches handleTouchMoveDolly, whose
getSecondPointerPosition dereferences the missing pointers[1] — the
handler throws (modelled as none) instead of falling back or no-opping. -/
theorem C2_touch_move_throws :
    cancelledSecondState.state = GState.TOUCH_DOLLY_PAN ∧
    cancelledSecondState.pointers.length = 1 ∧
    onPointerMove qOps (touchEv 1 1 1) cancelledSecondState = none := by
  refine ⟨by decide, by decide, by decide⟩

end ClaimC2

section ClaimC9

/-- Two consecutive touch pointer-down events with the same identifier. -/
def dupDownState : CtrlState ℚ :=
  onPointerDown qOps (touchEv 5 1 1) (onPointerDown qOps (touchEv 5 0 0) (mkState 0 ⟨0, 0, 5⟩))

/-- C9 counterexample: a re-entrant pointer-down for an identifier that is
already tracked appends a second entry, leaving a duplicate in the Active
Pointer Set (the position map, by contrast, is updated in place). -/
theorem C9_counterexample :
    dupDownState.pointers.map (fun p => p.pointerId) = [5, 5] ∧
    ¬ (dupDownState.pointers.map (fun p => p.pointerId)).Nodup ∧
    dupDownState.pointerPositions.map Prod.fst = [5] := by
  refine ⟨by decide, by decide, by decide⟩

/-- C9 (amended): a re-entrant pointer event for a tracked identifier
updates the position map in place — the entry holds the new coordinates,
the key list is unchanged when the key was present, and no duplicate key
is ever introduced; the Active Pointer Set however grows by one entry on
every pointer-down, even for an already-tracked identifier (only the
browser's guarantee of no repeated pointerdown per id prevents
duplicates). -/
theorem C9_track_in_place {K : Type} [LinearOrderedField K] [DecidableEq K]
    (ops : Ops K) (st : CtrlState K) (ev : PtrEvent K) (pid : Nat) (x y : K)
    (hen : st.enabled = true) :
    lookupPos (trackPointer pid x y st).pointerPositions pid = some ⟨x, y⟩ ∧
    ((lookupPos st.pointerPositions pid).isSome = true →
      (trackPointer pid x y st).pointerPositions.map Prod.fst =
        st.pointerPositions.map Prod.fst) ∧
    ((st.pointerPositions.map Prod.fst).Nodup →
      ((trackPointer pid x y st).pointerPositions.map Prod.fst).Nodup) ∧
    (onPointerDown ops ev st).pointers.length = st.pointers.length + 1 := by
  refine ⟨lookupPos_setPos_self _ _ _, ?_, nodup_keys_setPos _ _ _, ?_⟩
  · intro hs
    unfold trackPointer
    dsimp only
    rw [keys_setPos]
    cases hl : lookupPos st.pointerPositions pid with
    | none => rw [hl] at hs; simp at hs
    | some w => simp
  · unfold onPointerDown
    dsimp only
    split_ifs with h1 h2
    · rw [hen] at h1; exact absurd h1 (by simp)
    · rw [onTouchStart_pointers]; simp
    · rw [onMouseDown_pointers]; simp

/-- C9 witness: the in-place update at a concrete tracked pointer. -/
theorem C9_witness :
    twoTouchState.enabled = true ∧
    lookupPos (trackPointer 1 7 8 twoTouchState).pointerPositions 1 = some ⟨7, 8⟩ := by
  refine ⟨by decide, ?_⟩
  exact (C9_track_in_place qOps twoTouchState (touchEv 9 0 0) 1 7 8 (by decide)).1

end ClaimC9

section UpdateLemmas

variable {K : Type} [LinearOrderedField K] [DecidableEq K]

/-- The state component of update() always carries the updateBase fields. -/
theorem update_fst_sphericalDelta (ops : Ops K) (st : CtrlState K) :
    (update ops st).1.sphericalDelta = updDelta ops st := by
  unfold update; split <;> rfl

/-- update() writes the recomputed spherical position. -/
theorem update_fst_spherical (ops : Ops K) (st : CtrlState K) :
    (update ops st).1.spherical = updSpherical ops st := by
  unfold update; split <;> rfl

/-- update() writes the reconstructed camera position. -/
theorem update_fst_position (ops : Ops K) (st : CtrlState K) :
    (update ops st).1.position = updPosition ops st := by
  unfold update; split <;> rfl

/-- update() writes the panned target. -/
theorem update_fst_target (ops : Ops K) (st : CtrlState K) :
    (update ops st).1.target = updTarget st := by
  unfold update; split <;> rfl

/-- update() writes the decayed or zeroed pan offset. -/
theorem update_fst_panOffset (ops : Ops K) (st : CtrlState K) :
    (update ops st).1.panOffset = updPan st := by
  unfold update; split <;> rfl

/-- update() resets the transient Scale to 1. -/
theorem update_fst_scale (ops : Ops K) (st : CtrlState K) :
    (update ops st).1.scale = 1 := by
  unfold update; split <;> rfl

/-- update() re-orients the camera via lookAt. -/
theorem update_fst_quaternionCam (ops : Ops K) (st : CtrlState K) :
    (update ops st).1.quaternionCam = updQuat ops st := by
  unfold update; split <;> rfl

/-- After update() the zoomChanged flag is always clear: the change branch
clears it, and the no-change branch is only reached when it was clear. -/
theorem update_fst_zoomChanged (ops : Ops K) (st : CtrlState K) :
    (update ops st).1.zoomChanged = false := by
  unfold update
  split_ifs with h
  · rfl
  · unfold updChangedProp at h
    push_neg at h
    simpa [updateBase] using h.1

/-- update() preserves every configuration field and the interaction mode. -/
theorem update_fst_config (ops : Ops K) (st : CtrlState K) :
    (update ops st).1.enableDamping = st.enableDamping ∧
    (update ops st).1.dampingFactor = st.dampingFactor ∧
    (update ops st).1.autoRotate = st.autoRotate ∧
    (update ops st).1.autoRotateSpeed = st.autoRotateSpeed ∧
    (update ops st).1.state = st.state ∧
    (update ops st).1.minAzimuthAngle = st.minAzimuthAngle ∧
    (update ops st).1.maxAzimuthAngle = st.maxAzimuthAngle ∧
    (update ops st).1.minPolarAngle = st.minPolarAngle ∧
    (update ops st).1.maxPolarAngle = st.maxPolarAngle ∧
    (update ops st).1.minDistance = st.minDistance ∧
    (update ops st).1.maxDistance = st.maxDistance ∧
    (update ops st).1.isPerspective = st.isPerspective ∧
    (update ops st).1.zoom = st.zoom ∧
    (update ops st).1.enabled = st.enabled := by
  unfold update
  split <;> exact ⟨rfl, rfl, rfl, rfl, rfl, rfl, rfl, rfl, rfl, rfl, rfl, rfl, rfl, rfl⟩

/-- With damping on and auto-rotate off, update() multiplies the pending
azimuth delta by (1 - dampingFactor). -/
theorem update_decay_theta (ops : Ops K) (st : CtrlState K)
    (hd : st.enableDamping = true) (ha : st.autoRotate = false) :
    (update ops st).1.sphericalDelta.theta =
      st.sphericalDelta.theta * (1 - st.dampingFactor) := by
  rw [update_fst_sphericalDelta]
  unfold updDelta updAutoDelta
  simp [hd, ha]

end UpdateLemmas

section ClaimC6

/-- C6: with damping enabled, dampingFactor = 0.05 and a unit pending
rotate delta, one update() leaves 0.95 of the delta; k updates with no
further input leave exactly 0.95 to the k (the model computes exactly;
the source floats match within tolerance), which is never zero yet drops
below any positive bound. -/
theorem C6_damping_decay {K : Type} [LinearOrderedField K] [DecidableEq K] [Archimedean K]
    (ops : Ops K) (st : CtrlState K)
    (hd : st.enableDamping = true) (hf : st.dampingFactor = 1 / 20)
    (ha : st.autoRotate = false) (hθ : st.sphericalDelta.theta = 1) :
    ((update ops st).1.sphericalDelta.theta = 19 / 20) ∧
    (∀ k : ℕ, ((fun s => (update ops s).1)^[k] st).sphericalDelta.theta = (19 / 20) ^ k) ∧
    (∀ k : ℕ, ((fun s => (update ops s).1)^[k] st).sphericalDelta.theta ≠ 0) ∧
    (∀ ε : K, 0 < ε → ∃ k : ℕ,
      ((fun s => (update ops s).1)^[k] st).sphericalDelta.theta < ε) := by
  have key : ∀ k : ℕ,
      ((fun s => (update ops s).1)^[k] st).enableDamping = true ∧
      ((fun s => (update ops s).1)^[k] st).dampingFactor = 1 / 20 ∧
      ((fun s => (update ops s).1)^[k] st).autoRotate = false ∧
      ((fun s => (update ops s).1)^[k] st).sphericalDelta.theta = (19 / 20) ^ k := by
    intro k
    induction k with
    | zero => exact ⟨hd, hf, ha, by simpa using hθ⟩
    | succ n ih =>
      obtain ⟨ih1, ih2, ih3, ih4⟩ := ih
      rw [Function.iterate_succ_apply']
      have hcfg := update_fst_config ops ((fun s => (update ops s).1)^[n] st)
      refine ⟨by rw [hcfg.1]; exact ih1, by rw [hcfg.2.1]; exact ih2,
        by rw [hcfg.2.2.1]; exact ih3, ?_⟩
      rw [update_decay_theta _ _ ih1 ih3, ih4, ih2]
      ring
  refine ⟨?_, fun k => (key k).2.2.2, ?_, ?_⟩
  · rw [update_decay_theta ops st hd ha, hθ, hf]; ring
  · intro k
    rw [(key k).2.2.2]
    exact pow_ne_zero k (by norm_num)
  · intro ε hε
    obtain ⟨k, hk⟩ := exists_pow_lt_of_lt_one hε (by norm_num : (19 : K) / 20 < 1)
    exact ⟨k, by rw [(key k).2.2.2]; exact hk⟩

/-- A damping-enabled controller state with a unit pending rotate delta. -/
def dampedState : CtrlState ℚ :=
  { mkState 0 ⟨0, 0, 5⟩ with enableDamping := true, sphericalDelta := ⟨0, 0, 1⟩ }

/-- C6 witness: the decay at the concrete damped state. -/
theorem C6_witness :
    (dampedState.enableDamping = true ∧ dampedState.dampingFactor = 1 / 20 ∧
      dampedState.autoRotate = false ∧ dampedState.sphericalDelta.theta = 1) ∧
    (update qOps dampedState).1.sphericalDelta.theta = 19 / 20 := by
  refine ⟨⟨rfl, rfl, rfl, rfl⟩, ?_⟩
  exact (C6_damping_decay qOps dampedState rfl rfl rfl rfl).1

end ClaimC6

section ClaimC8

/-- The constant unit quaternion stand-in for the external lookAt function
in concrete real-valued scenarios. -/
def unitL : V3 ℝ → V3 ℝ → Quat ℝ := fun _ _ => ⟨0, 0, 0, 1⟩

/-- A real-valued state with rotateSpeed = 2 and canvasHeight = 100. -/
noncomputable def fastRotateState : CtrlState ℝ :=
  { mkState Real.pi ⟨0, 0, 5⟩ with rotateSpeed := 2, clientHeight := 100 }

/-- C8 counterexample: with rotateSpeed = 2, canvasHeight = 100 and a drag
from x = 0 to x = 100, the pending azimuth delta changes by -4*PI, not by
the claimed speed-free -2*PI*dx/canvasHeight = -2*PI. -/
theorem C8_counterexample :
    (handleMouseMoveRotate (realOps unitL) 100 0 fastRotateState).sphericalDelta.theta =
      -(4 * Real.pi) ∧
    (handleMouseMoveRotate (realOps unitL) 100 0 fastRotateState).sphericalDelta.theta ≠
      -(2 * Real.pi) := by
  have hval : (handleMouseMoveRotate (realOps unitL) 100 0 fastRotateState).sphericalDelta.theta
      = -(4 * Real.pi) := by
    unfold handleMouseMoveRotate
    simp only [fastRotateState, mkState, realOps]
    ring
  refine ⟨hval, ?_⟩
  rw [hval]
  intro h
  have : Real.pi = 0 := by linarith [congrArg (fun t : ℝ => t / 2) h]
  exact Real.pi_ne_zero this

/-- C8 (amended): a pointer-move of (dx, dy) during a rotate gesture
accumulates the deltas scaled by rotateSpeed and normalized by the canvas
height on both axes; in particular with rotateSpeed = 1 a drag of
dx = canvasHeight changes the pending azimuth delta by exactly -2*PI
before any damping decay. -/
theorem C8_rotate_accumulate {K : Type} [LinearOrderedField K] [DecidableEq K]
    (ops : Ops K) (st : CtrlState K) (x y : K) :
    ((handleMouseMoveRotate ops x y st).sphericalDelta.theta =
      st.sphericalDelta.theta -
        2 * ops.pi * ((x - st.rotateStart.x) * st.rotateSpeed) / st.clientHeight) ∧
    ((handleMouseMoveRotate ops x y st).sphericalDelta.phi =
      st.sphericalDelta.phi -
        2 * ops.pi * ((y - st.rotateStart.y) * st.rotateSpeed) / st.clientHeight) ∧
    (st.rotateSpeed = 1 → st.clientHeight ≠ 0 → x - st.rotateStart.x = st.clientHeight →
      (handleMouseMoveRotate ops x y st).sphericalDelta.theta =
        st.sphericalDelta.theta - 2 * ops.pi) := by
  refine ⟨rfl, rfl, fun hspeed hh hdx => ?_⟩
  show st.sphericalDelta.theta -
      2 * ops.pi * ((x - st.rotateStart.x) * st.rotateSpeed) / st.clientHeight =
    st.sphericalDelta.theta - 2 * ops.pi
  rw [hspeed, hdx]
  field_simp

/-- C8 witness: the full-height drag at a concrete default state. -/
theorem C8_witness :
    ((mkState (0 : ℚ) ⟨0, 0, 5⟩).rotateSpeed = 1 ∧
      (mkState (0 : ℚ) ⟨0, 0, 5⟩).clientHeight ≠ 0 ∧
      (600 : ℚ) - (mkState (0 : ℚ) ⟨0, 0, 5⟩).rotateStart.x =
        (mkState (0 : ℚ) ⟨0, 0, 5⟩).clientHeight) ∧
    (handleMouseMoveRotate qOps 600 0 (mkState (0 : ℚ) ⟨0, 0, 5⟩)).sphericalDelta.theta =
      (mkState (0 : ℚ) ⟨0, 0, 5⟩).sphericalDelta.theta - 2 * qOps.pi := by
  refine ⟨⟨rfl, by norm_num [mkState], by norm_num [mkState]⟩, ?_⟩
  exact (C8_rotate_accumulate qOps (mkState 0 ⟨0, 0, 5⟩) 600 0).2.2 rfl
    (by norm_num [mkState]) (by norm_num [mkState])

end ClaimC8

section ClaimC4

/-- C4 counterexample: the finite bound -PI (a legal configuration value,
the documented contract allows bounds in [-2*PI, 2*PI]) is left at -PI by
the normalization step, which is not in the claimed half-open interval
(-PI, PI]. -/
theorem C4_counterexample :
    normAngle Real.pi (-Real.pi) = -Real.pi ∧
    normAngle Real.pi (-Real.pi) ∉ Set.Ioc (-Real.pi) Real.pi := by
  have hπ := Real.pi_pos
  have hn : normAngle Real.pi (-Real.pi) = -Real.pi := by
    unfold normAngle
    rw [if_neg (by linarith), if_neg (by linarith)]
  refine ⟨hn, ?_⟩
  rw [hn]
  simp [Set.mem_Ioc]

/-- C4 (amended): with minAzimuthAngle = -PI/2 and maxAzimuthAngle = PI/2,
an azimuth pushed to 0.9*PI is clamped to PI/2 and one pushed to -0.9*PI
to -PI/2; in general finite bounds are normalized into the closed
interval [-PI, PI] (the endpoint -PI maps to itself, so the half-open
(-PI, PI] of the original claim is off by that endpoint), theta is
clamped directly when the normalized min is at most the normalized max,
and otherwise an angle in the excluded gap goes to whichever bound is
nearer (ties to the max bound). -/
theorem C4_azimuth_clamp :
    (azimuthClamp Real.pi (some (-(Real.pi / 2))) (some (Real.pi / 2))
        (9 / 10 * Real.pi) = Real.pi / 2) ∧
    (azimuthClamp Real.pi (some (-(Real.pi / 2))) (some (Real.pi / 2))
        (-(9 / 10) * Real.pi) = -(Real.pi / 2)) ∧
    (∀ a : ℝ, -(2 * Real.pi) ≤ a → a ≤ 2 * Real.pi →
      normAngle Real.pi a ∈ Set.Icc (-Real.pi) Real.pi) ∧
    (∀ mn mx θ : ℝ, normAngle Real.pi mn ≤ normAngle Real.pi mx →
      azimuthClamp Real.pi (some mn) (some mx) θ =
        max (normAngle Real.pi mn) (min (normAngle Real.pi mx) θ)) ∧
    (∀ mn mx θ : ℝ, normAngle Real.pi mx < normAngle Real.pi mn →
      normAngle Real.pi mx < θ → θ < normAngle Real.pi mn →
      azimuthClamp Real.pi (some mn) (some mx) θ =
        if normAngle Real.pi mn - θ < θ - normAngle Real.pi mx then normAngle Real.pi mn
        else normAngle Real.pi mx) := by
  have hπ := Real.pi_pos
  have hm : normAngle Real.pi (-(Real.pi / 2)) = -(Real.pi / 2) := by
    unfold normAngle
    rw [if_neg (by linarith), if_neg (by linarith)]
  have hM : normAngle Real.pi (Real.pi / 2) = Real.pi / 2 := by
    unfold normAngle
    rw [if_neg (by linarith), if_neg (by linarith)]
  refine ⟨?_, ?_, ?_, ?_, ?_⟩
  · unfold azimuthClamp
    dsimp only
    rw [hm, hM, if_pos (by linarith), min_eq_left (by linarith), max_eq_right (by linarith)]
  · unfold azimuthClamp
    dsimp only
    rw [hm, hM, if_pos (by linarith), min_eq_right (by linarith), max_eq_left (by linarith)]
  · intro a h1 h2
    unfold normAngle
    split_ifs with ha1 ha2 <;> constructor <;> linarith
  · intro mn mx θ hle
    unfold azimuthClamp
    dsimp only
    rw [if_pos hle]
  · intro mn mx θ hlt hgap1 hgap2
    unfold azimuthClamp
    dsimp only
    rw [if_neg (not_le.2 hlt)]
    split_ifs with h1 h2 h2
    · exact max_eq_left (le_of_lt hgap2)
    · exact absurd (by linarith : normAngle Real.pi mn - θ < θ - normAngle Real.pi mx) h2
    · exact absurd (by linarith : (normAngle Real.pi mn + normAngle Real.pi mx) / 2 < θ) h1
    · exact min_eq_left (le_of_lt hgap1)

/-- C4 witness: the normalization at the in-range angle 0. -/
theorem C4_witness :
    (-(2 * Real.pi) ≤ (0 : ℝ) ∧ (0 : ℝ) ≤ 2 * Real.pi) ∧
    normAngle Real.pi 0 ∈ Set.Icc (-Real.pi) Real.pi := by
  have hπ := Real.pi_pos
  exact ⟨⟨by linarith, by linarith⟩, C4_azimuth_clamp.2.2.1 0 (by linarith) (by linarith)⟩

end ClaimC4

section ClaimC7

/-- C7 counterexample: with the legal configuration minPolarAngle =
maxPolarAngle = 0, the polar pipeline (clamp then makeSafe) returns EPS,
which cannot lie in the claimed interval [max(0, EPS), min(0, PI - EPS)]
(that interval is empty). -/
theorem C7_counterexample :
    polarPipeline 0 0 Real.pi 1 = (EPS : ℝ) ∧
    polarPipeline 0 0 Real.pi 1 ∉
      Set.Icc (max 0 (EPS : ℝ)) (min 0 (Real.pi - EPS)) := by
  have hπ := Real.pi_gt_three
  have heps : (EPS : ℝ) = 1 / 1000000 := rfl
  have hval : polarPipeline 0 0 Real.pi 1 = (EPS : ℝ) := by
    unfold polarPipeline
    rw [show min (0 : ℝ) 1 = 0 from min_eq_left (by norm_num),
        show max (0 : ℝ) 0 = 0 from max_self 0,
        show min (Real.pi - EPS) (0 : ℝ) = 0 from min_eq_right (by rw [heps]; linarith),
        show max (EPS : ℝ) 0 = EPS from max_eq_left (by rw [heps]; norm_num)]
  refine ⟨hval, ?_⟩
  rw [hval]
  intro hmem
  have h2 := hmem.2
  have : (EPS : ℝ) ≤ 0 := le_trans h2 (min_le_left _ _)
  rw [heps] at this
  linarith

/-- C7 (amended): for configured polar bounds with
0 ≤ minPolarAngle ≤ maxPolarAngle ≤ PI that also satisfy
minPolarAngle ≤ PI - EPS and EPS ≤ maxPolarAngle (the claim is false in
the EPS-neighbourhood of the poles excluded here), the polar angle
written by update() after any pending rotation lies in
[max(minPolarAngle, EPS), min(maxPolarAngle, PI - EPS)]. -/
theorem C7_polar_bounds (L : V3 ℝ → V3 ℝ → Quat ℝ) (st : CtrlState ℝ)
    (h1 : 0 ≤ st.minPolarAngle) (h2 : st.minPolarAngle ≤ st.maxPolarAngle)
    (h3 : st.maxPolarAngle ≤ Real.pi)
    (h4 : st.minPolarAngle ≤ Real.pi - EPS) (h5 : (EPS : ℝ) ≤ st.maxPolarAngle) :
    (update (realOps L) st).1.spherical.phi ∈
      Set.Icc (max st.minPolarAngle (EPS : ℝ)) (min st.maxPolarAngle (Real.pi - EPS)) := by
  have hπ := Real.pi_gt_three
  have heps : (EPS : ℝ) = 1 / 1000000 := rfl
  have hepspi : (EPS : ℝ) ≤ Real.pi - EPS := by rw [heps]; linarith
  rw [update_fst_spherical]
  show updPhi (realOps L) st ∈ _
  unfold updPhi polarPipeline
  set φ := (updSpherical0 (realOps L) st).phi + (updAutoDelta (realOps L) st).phi * updFactor st
  set c := max st.minPolarAngle (min st.maxPolarAngle φ) with hc
  have hcl : st.minPolarAngle ≤ c := le_max_left _ _
  have hcu : c ≤ st.maxPolarAngle := by
    rw [hc]
    exact max_le h2 (min_le_left _ _)
  constructor
  · refine max_le ?_ (le_max_left _ _)
    calc st.minPolarAngle ≤ min (Real.pi - EPS) c := le_min h4 hcl
    _ ≤ max (EPS : ℝ) (min (Real.pi - EPS) c) := le_max_right _ _
  · refine le_min ?_ ?_
    · exact max_le h5 (le_trans (min_le_right _ _) hcu)
    · exact max_le hepspi (min_le_left _ _)

/-- C7 witness: the default bounds (0 and PI) at a concrete state. -/
theorem C7_witness :
    (0 ≤ (mkState Real.pi ⟨0, 0, 5⟩).minPolarAngle ∧
      (mkState Real.pi ⟨0, 0, 5⟩).minPolarAngle ≤ (mkState Real.pi ⟨0, 0, 5⟩).maxPolarAngle ∧
      (mkState Real.pi ⟨0, 0, 5⟩).maxPolarAngle ≤ Real.pi) ∧
    (update (realOps unitL) (mkState Real.pi ⟨0, 0, 5⟩)).1.spherical.phi ∈
      Set.Icc (max (mkState Real.pi ⟨0, 0, 5⟩).minPolarAngle (EPS : ℝ))
        (min (mkState Real.pi ⟨0, 0, 5⟩).maxPolarAngle (Real.pi - EPS)) := by
  have hπ := Real.pi_gt_three
  refine ⟨⟨le_refl 0, by simpa [mkState] using Real.pi_pos.le, le_refl Real.pi⟩, ?_⟩
  exact C7_polar_bounds unitL (mkState Real.pi ⟨0, 0, 5⟩) (le_refl 0)
    (by simpa [mkState] using Real.pi_pos.le) (le_refl Real.pi)
    (by show (0 : ℝ) ≤ Real.pi - EPS; have : (EPS : ℝ) = 1 / 1000000 := rfl; linarith)
    (by show (EPS : ℝ) ≤ Real.pi; have : (EPS : ℝ) = 1 / 1000000 := rfl; linarith)

end ClaimC7

section ClaimC3

/-- A perspective controller in a two-finger dolly-pan gesture: pointers 1
and 2 tracked at squared distance 1 apart, initial pinch distance 2. -/
noncomputable def pinchState : CtrlState ℝ :=
  { mkState Real.pi ⟨0, 0, 5⟩ with
    pointers := [touchEv 1 0 0, touchEv 2 0 1],
    pointerPositions := [(1, ⟨0, 0⟩), (2, ⟨0, 1⟩)],
    dollyStart := ⟨0, 2⟩,
    state := GState.TOUCH_DOLLY_PAN }

/-- C3 counterexample: a pinch from distance d0 = 2 to d1 = 1 (d1 < d0)
on a perspective camera multiplies the transient Scale by 2 (from 1 to
2), so the radius grows — the camera dollies OUT, not the claimed
"zoom in". -/
theorem C3_counterexample :
    pinchState.dollyStart.y = 2 ∧ pinchState.scale = 1 ∧
    (handleTouchMoveDolly (realOps unitL) 1 0 0 pinchState).map (fun s => s.scale) =
      some 2 := by
  refine ⟨rfl, rfl, ?_⟩
  have hq : getSecondPointerPosition pinchState 1 = some ⟨0, 1⟩ := rfl
  unfold handleTouchMoveDolly
  rw [hq]
  have hdist : Real.sqrt (((0 : ℝ) - 0) * (0 - 0) + ((0 : ℝ) - 1) * (0 - 1)) = 1 := by
    rw [show ((0 : ℝ) - 0) * (0 - 0) + ((0 : ℝ) - 1) * (0 - 1) = 1 by norm_num]
    exact Real.sqrt_one
  simp only [realOps, Option.map_some, dolly, hdist]
  rw [show pinchState.isPerspective = true from rfl, if_pos rfl]
  simp only [show pinchState.dollyStart = (⟨0, 2⟩ : V2 ℝ) from rfl,
    show pinchState.zoomSpeed = 1 from rfl, show pinchState.scale = 1 from rfl]
  norm_num [Real.rpow_one]

/-- C3 (amended): moving the pinch from distance d0 to d1 < d0 dollies
OUT: for a perspective camera the transient Scale is multiplied by
1 / (d1/d0)^zoomSpeed, which exceeds 1, so the radius grows; for an
orthographic camera the zoom factor is multiplied by (d1/d0)^zoomSpeed
and strictly decreases; and the multiplier is strictly monotone in the
ratio d1/d0 (a smaller ratio gives a strictly larger radius multiplier). -/
theorem C3_pinch_dolly_out (L : V3 ℝ → V3 ℝ → Quat ℝ) (st : CtrlState ℝ) (pid : Nat)
    (x y x' y' : ℝ) (q : V2 ℝ) (d0 d1 d1' : ℝ)
    (hq : getSecondPointerPosition st pid = some q)
    (hd1 : Real.sqrt ((x - q.x) * (x - q.x) + (y - q.y) * (y - q.y)) = d1)
    (hd1' : Real.sqrt ((x' - q.x) * (x' - q.x) + (y' - q.y) * (y' - q.y)) = d1')
    (hd0 : st.dollyStart.y = d0)
    (h1 : 0 < d1) (h11 : d1 < d1') (h10 : d1' < d0) (hz : 0 < st.zoomSpeed) :
    (st.isPerspective = true →
      (handleTouchMoveDolly (realOps L) pid x y st).map (fun s => s.scale) =
        some (st.scale * (1 / (d1 / d0) ^ st.zoomSpeed)) ∧
      (handleTouchMoveDolly (realOps L) pid x' y' st).map (fun s => s.scale) =
        some (st.scale * (1 / (d1' / d0) ^ st.zoomSpeed)) ∧
      1 < 1 / (d1 / d0) ^ st.zoomSpeed ∧
      (0 < st.scale → st.scale < st.scale * (1 / (d1 / d0) ^ st.zoomSpeed)) ∧
      (0 < st.scale → st.scale * (1 / (d1' / d0) ^ st.zoomSpeed) <
        st.scale * (1 / (d1 / d0) ^ st.zoomSpeed))) ∧
    (st.isPerspective = false → 0 < st.zoom → st.maxZoom = none →
      st.minZoom ≤ st.zoom * (d1 / d0) ^ st.zoomSpeed →
      (handleTouchMoveDolly (realOps L) pid x y st).map (fun s => s.zoom) =
        some (st.zoom * (d1 / d0) ^ st.zoomSpeed) ∧
      st.zoom * (d1 / d0) ^ st.zoomSpeed < st.zoom) := by
  have hd1'0 : 0 < d1' := lt_trans h1 h11
  have hd00 : 0 < d0 := lt_trans hd1'0 h10
  have hr0 : 0 < d1 / d0 := div_pos h1 hd00
  have hr0' : 0 < d1' / d0 := div_pos hd1'0 hd00
  have hr1 : d1 / d0 < 1 := (div_lt_one hd00).2 (lt_trans h11 h10)
  have hr1' : d1' / d0 < 1 := (div_lt_one hd00).2 h10
  have hpow : (d1 / d0) ^ st.zoomSpeed < 1 := Real.rpow_lt_one hr0.le hr1 hz
  have hpowpos : 0 < (d1 / d0) ^ st.zoomSpeed := Real.rpow_pos_of_pos hr0 _
  have hpowpos' : 0 < (d1' / d0) ^ st.zoomSpeed := Real.rpow_pos_of_pos hr0' _
  have hmono : (d1 / d0) ^ st.zoomSpeed < (d1' / d0) ^ st.zoomSpeed :=
    Real.rpow_lt_rpow hr0.le ((div_lt_div_iff_of_pos_right hd00).2 h11) hz
  have hrunP : ∀ xe ye de, Real.sqrt ((xe - q.x) * (xe - q.x) + (ye - q.y) * (ye - q.y)) = de →
      st.isPerspective = true →
      (handleTouchMoveDolly (realOps L) pid xe ye st).map (fun s => s.scale) =
        some (st.scale * (1 / (de / d0) ^ st.zoomSpeed)) := by
    intro xe ye de hde hp
    unfold handleTouchMoveDolly
    rw [hq]
    simp only [realOps, Option.map_some, dolly, hde, hd0, hp, if_pos rfl, if_true,
      Real.rpow_eq_pow]
    rfl
  refine ⟨fun hp => ⟨hrunP x y d1 hd1 hp, hrunP x' y' d1' hd1' hp, ?_, ?_, ?_⟩,
    fun hp hzoom hmz hmin => ⟨?_, ?_⟩⟩
  · rw [one_div]
    exact (one_lt_inv₀ hpowpos).2 hpow
  · intro hsc
    nth_rewrite 1 [show st.scale = st.scale * 1 from (mul_one _).symm]
    refine mul_lt_mul_of_pos_left ?_ hsc
    rw [one_div]
    exact (one_lt_inv₀ hpowpos).2 hpow
  · intro hsc
    refine mul_lt_mul_of_pos_left ?_ hsc
    exact one_div_lt_one_div_of_lt hpowpos hmono
  · unfold handleTouchMoveDolly
    rw [hq]
    simp [realOps, dolly, hd1, hd0, hp, hmz, Real.rpow_eq_pow]
    exact hmin
  · exact mul_lt_of_lt_one_right hzoom hpow

/-- C3 witness: the concrete pinch 2 to 1 on the perspective state. -/
theorem C3_witness :
    ((0 : ℝ) < 1 ∧ (1 : ℝ) < 3 / 2 ∧ (3 / 2 : ℝ) < 2 ∧ 0 < pinchState.zoomSpeed) ∧
    1 < 1 / ((1 / 2 : ℝ) ^ pinchState.zoomSpeed) := by
  have hd1 : Real.sqrt (((0 : ℝ) - 0) * (0 - 0) + ((0 : ℝ) - 1) * (0 - 1)) = 1 := by
    rw [show ((0 : ℝ) - 0) * (0 - 0) + ((0 : ℝ) - 1) * (0 - 1) = 1 by norm_num]
    exact Real.sqrt_one
  have hd1' : Real.sqrt (((0 : ℝ) - 0) * (0 - 0) + ((-(1 / 2) : ℝ) - 1) * (-(1 / 2) - 1)) =
      3 / 2 := by
    rw [show ((0 : ℝ) - 0) * (0 - 0) + ((-(1 / 2) : ℝ) - 1) * (-(1 / 2) - 1) = (3 / 2) ^ 2
      by norm_num]
    exact Real.sqrt_sq (by norm_num)
  have hz : (0 : ℝ) < pinchState.zoomSpeed := by norm_num [pinchState, mkState]
  have happ := (C3_pinch_dolly_out unitL pinchState 1 0 0 0 (-(1 / 2)) ⟨0, 1⟩ 2 1 (3 / 2)
    rfl hd1 hd1' rfl (by norm_num) (by norm_num) (by norm_num) hz).1 rfl
  refine ⟨⟨by norm_num, by norm_num, by norm_num, hz⟩, ?_⟩
  simpa using happ.2.2.1

end ClaimC3

attribute [ext] V2 V3 Quat Spherical

section VectorLemmas

variable {K : Type} [LinearOrderedField K] [DecidableEq K]

/-- Adding the zero vector is the identity. -/
theorem v3add_zero (a : V3 K) : v3add a v3zero = a := by
  unfold v3add v3zero
  ext <;> simp

/-- Subtracting the base from a translate recovers the offset. -/
theorem v3add_sub_cancel (a b : V3 K) : v3sub (v3add a b) a = b := by
  unfold v3sub v3add
  ext <;> dsimp <;> ring

/-- The offset between distinct points is nonzero. -/
theorem v3sub_ne_zero (a b : V3 K) (h : a ≠ b) : v3sub a b ≠ v3zero := by
  intro hc
  apply h
  have hx := congrArg V3.x hc
  have hy := congrArg V3.y hc
  have hz := congrArg V3.z hc
  unfold v3sub v3zero at hx hy hz
  dsimp at hx hy hz
  ext
  · linarith
  · linarith
  · linarith

/-- The squared length of a nonzero vector is positive. -/
theorem v3_sq_sum_pos (v : V3 ℝ) (hv : v ≠ v3zero) :
    0 < v.x * v.x + v.y * v.y + v.z * v.z := by
  have hnn : (0 : ℝ) ≤ v.x * v.x + v.y * v.y + v.z * v.z :=
    add_nonneg (add_nonneg (mul_self_nonneg _) (mul_self_nonneg _)) (mul_self_nonneg _)
  rcases lt_or_eq_of_le hnn with h | h
  · exact h
  · exfalso
    apply hv
    have hx : v.x = 0 := by
      nlinarith [mul_self_nonneg v.x, mul_self_nonneg v.y, mul_self_nonneg v.z]
    have hy : v.y = 0 := by
      nlinarith [mul_self_nonneg v.x, mul_self_nonneg v.y, mul_self_nonneg v.z]
    have hz : v.z = 0 := by
      nlinarith [mul_self_nonneg v.x, mul_self_nonneg v.y, mul_self_nonneg v.z]
    ext <;> simpa [v3zero]

/-- The squared distance from a point to itself vanishes. -/
theorem dist2_self (a : V3 K) : dist2 a a = 0 := by
  unfold dist2; ring

end VectorLemmas

section ClampLemmas

variable {K : Type} [LinearOrderedField K] [DecidableEq K]

/-- Composing two proper interval clamps is idempotent. -/
theorem clamp_clamp_idem {α : Type} [LinearOrder α] (a b lo hi x : α)
    (hab : a ≤ b) (hlh : lo ≤ hi) :
    max lo (min hi (max a (min b (max lo (min hi (max a (min b x))))))) =
      max lo (min hi (max a (min b x))) := by
  set c := max a (min b x) with hc
  have hca : a ≤ c := le_max_left _ _
  have hcb : c ≤ b := max_le hab (min_le_left _ _)
  set y := max lo (min hi c) with hy
  have hylo : lo ≤ y := le_max_left _ _
  have hyhi : y ≤ hi := max_le hlh (min_le_left _ _)
  rcases le_or_lt a y with hay | hay
  · rcases le_or_lt y b with hyb | hyb
    · rw [min_eq_right hyb, max_eq_right hay, min_eq_right hyhi, max_eq_right hylo]
    · -- y above the first interval: then y = lo and b < lo
      have hmc : min hi c ≤ b := (min_le_right hi c).trans hcb
      have h2 : y = lo := by
        rcases max_choice lo (min hi c) with h | h
        · rw [hy, h]
        · exfalso
          have hyB : y ≤ b := by rw [hy, h]; exact hmc
          exact absurd hyB (not_le.2 hyb)
      have hblo : b < lo := h2 ▸ hyb
      rw [h2, min_eq_left hblo.le, max_eq_right hab,
          min_eq_right (hblo.le.trans hlh), max_eq_left hblo.le]
  · -- y below the first interval: then y = hi and hi < a
    have h2 : y = hi := by
      rcases min_choice hi c with h | h
      · rw [hy, h, max_eq_right hlh]
      · exfalso
        have hcy : c ≤ y := by rw [hy, h]; exact le_max_right _ _
        exact absurd (hca.trans hcy) (not_le.2 hay)
    have hhia : hi < a := h2 ▸ hay
    rw [h2, min_eq_right (hhia.le.trans hab), max_eq_left hhia.le,
        min_eq_left hhia.le, max_eq_right hlh]

/-- The radius clamp is idempotent. -/
theorem clampRadius_idem (minD : K) (maxD : Option K) (r : K) :
    clampRadius minD maxD (clampRadius minD maxD r) = clampRadius minD maxD r := by
  unfold clampRadius
  cases maxD with
  | none => dsimp only; rw [← max_assoc, max_self]
  | some m =>
    dsimp only
    rcases le_total minD (min m r) with h | h
    · rw [max_eq_right h, ← min_assoc, min_self]
      exact max_eq_right h
    · rw [max_eq_left h, max_eq_left (min_le_right m minD)]

/-- The clamped radius is positive when the raw radius is and any finite
maxDistance is. -/
theorem clampRadius_pos (minD : K) (maxD : Option K) (r : K) (hr : 0 < r)
    (hm : ∀ m, maxD = some m → 0 < m) : 0 < clampRadius minD maxD r := by
  unfold clampRadius
  cases maxD with
  | none => exact lt_of_lt_of_le hr (le_max_right _ _)
  | some m => exact lt_of_lt_of_le (lt_min (hm m rfl) hr) (le_max_right _ _)

end ClampLemmas

section RoundTrip

/-- Converting a canonical spherical position (positive radius, polar
angle strictly between the poles, azimuth in (-PI, PI]) to a vector and
back recovers it exactly. -/
theorem sphericalFromV3_fromSpherical (L : V3 ℝ → V3 ℝ → Quat ℝ) (r φ θ : ℝ)
    (hr : 0 < r) (hφ0 : 0 < φ) (hφπ : φ < Real.pi)
    (hθ1 : -Real.pi < θ) (hθ2 : θ ≤ Real.pi) :
    sphericalFromV3 (realOps L) (v3FromSpherical (realOps L) ⟨r, φ, θ⟩) = ⟨r, φ, θ⟩ := by
  have hsin : 0 < Real.sin φ := Real.sin_pos_of_pos_of_lt_pi hφ0 hφπ
  have hsρ : 0 < Real.sin φ * r := mul_pos hsin hr
  unfold v3FromSpherical sphericalFromV3 realOps realAtan2
  dsimp only
  have hsum : Real.sin φ * r * Real.sin θ * (Real.sin φ * r * Real.sin θ) +
      Real.cos φ * r * (Real.cos φ * r) +
      Real.sin φ * r * Real.cos θ * (Real.sin φ * r * Real.cos θ) = r ^ 2 := by
    have h1 := Real.sin_sq_add_cos_sq θ
    have h2 := Real.sin_sq_add_cos_sq φ
    linear_combination (Real.sin φ ^ 2 * r ^ 2) * h1 + r ^ 2 * h2
  rw [hsum, Real.sqrt_sq hr.le, if_neg hr.ne']
  have hphi : Real.arccos (max (-1) (min 1 (Real.cos φ * r / r))) = φ := by
    rw [mul_div_cancel_right₀ _ hr.ne', min_eq_right (Real.cos_le_one φ),
        max_eq_right (Real.neg_one_le_cos φ)]
    exact Real.arccos_cos hφ0.le hφπ.le
  have htheta : Complex.arg ⟨Real.sin φ * r * Real.cos θ, Real.sin φ * r * Real.sin θ⟩ = θ := by
    have hmk : (⟨Real.sin φ * r * Real.cos θ, Real.sin φ * r * Real.sin θ⟩ : ℂ) =
        ((Real.sin φ * r : ℝ) : ℂ) * (Complex.cos θ + Complex.sin θ * Complex.I) := by
      apply Complex.ext <;>
        simp [Complex.mul_re, Complex.mul_im, Complex.add_re, Complex.add_im,
          Complex.cos_ofReal_re, Complex.cos_ofReal_im, Complex.sin_ofReal_re,
          Complex.sin_ofReal_im] <;> ring
    rw [hmk, Complex.arg_real_mul _ hsρ, Complex.arg_cos_add_sin_mul_I ⟨hθ1, hθ2⟩]
  rw [hphi, htheta]

/-- For a camera not sitting on the target, the re-derived spherical
position has positive radius and azimuth in (-PI, PI]. -/
theorem updSpherical0_basic (L : V3 ℝ → V3 ℝ → Quat ℝ) (st : CtrlState ℝ)
    (hpos : st.position ≠ st.target) :
    0 < (updSpherical0 (realOps L) st).radius ∧
    (updSpherical0 (realOps L) st).theta ∈ Set.Ioc (-Real.pi) Real.pi := by
  unfold updSpherical0 sphericalFromV3 realOps realAtan2
  dsimp only
  have hvne := v3sub_ne_zero st.position st.target hpos
  have hsum := v3_sq_sum_pos _ hvne
  have hrad := Real.sqrt_pos.2 hsum
  rw [if_neg hrad.ne']
  exact ⟨hrad, Complex.arg_mem_Ioc _⟩

/-- With no pending input (no damping, no auto-rotate, zero deltas, unit
scale, unbounded azimuth), the spherical position written by update() is
just the clamped re-derived one: radius clamped, phi through the polar
pipeline, theta untouched. -/
theorem updSpherical_noInput (L : V3 ℝ → V3 ℝ → Quat ℝ) (st : CtrlState ℝ)
    (hdamp : st.enableDamping = false) (hauto : st.autoRotate = false)
    (hδ : st.sphericalDelta = ⟨0, 0, 0⟩) (hscale : st.scale = 1)
    (haz1 : st.minAzimuthAngle = none) (haz2 : st.maxAzimuthAngle = none) :
    updSpherical (realOps L) st =
      ⟨clampRadius st.minDistance st.maxDistance (updSpherical0 (realOps L) st).radius,
       polarPipeline st.minPolarAngle st.maxPolarAngle Real.pi
         (updSpherical0 (realOps L) st).phi,
       (updSpherical0 (realOps L) st).theta⟩ := by
  have hAuto : updAutoDelta (realOps L) st = st.sphericalDelta := by
    unfold updAutoDelta
    rw [hauto]
    simp
  have hFac : updFactor st = 1 := by
    unfold updFactor
    rw [hdamp]
    simp
  unfold updSpherical updRadius updPhi updTheta
  rw [hAuto, hδ, hFac, hscale, haz1, haz2]
  unfold azimuthClamp
  have hpi : (realOps L).pi = Real.pi := rfl
  rw [hpi]
  ext <;> dsimp <;> norm_num

end RoundTrip

section SettledHelpers

variable {K : Type} [LinearOrderedField K] [DecidableEq K]

/-- The polar pipeline (configured clamp then makeSafe) is idempotent for
ordered configured bounds. -/
theorem polarPipeline_idem (a b : ℝ) (hab : a ≤ b) (x : ℝ) :
    polarPipeline a b Real.pi (polarPipeline a b Real.pi x) =
      polarPipeline a b Real.pi x := by
  have hepspi : (EPS : ℝ) ≤ Real.pi - EPS := by
    have := Real.pi_gt_three
    rw [show (EPS : ℝ) = 1 / 1000000 from rfl]
    linarith
  unfold polarPipeline
  exact clamp_clamp_idem a b EPS (Real.pi - EPS) x hab hepspi

/-- When the change condition fails, update() returns the base state and
false. -/
theorem update_of_not_changed (ops : Ops K) (st : CtrlState K)
    (h : ¬ updChangedProp ops st) : update ops st = (updateBase ops st, false) := by
  unfold update
  rw [if_neg h]

/-- Either update() took the change branch and refreshed last position and
orientation, or the change condition failed and both are untouched. -/
theorem update_last_spec (ops : Ops K) (st : CtrlState K) :
    ((update ops st).1.lastPosition = updPosition ops st ∧
      (update ops st).1.lastQuaternion = updQuat ops st) ∨
    (¬ updChangedProp ops st ∧
      (update ops st).1.lastPosition = st.lastPosition ∧
      (update ops st).1.lastQuaternion = st.lastQuaternion) := by
  unfold update
  split_ifs with h
  · exact Or.inl ⟨rfl, rfl⟩
  · exact Or.inr ⟨h, rfl, rfl⟩

/-- Without damping, update() zeroes the pending rotation delta. -/
theorem update_noInput_delta (ops : Ops K) (st : CtrlState K)
    (hdamp : st.enableDamping = false) :
    (update ops st).1.sphericalDelta = ⟨0, 0, 0⟩ := by
  rw [update_fst_sphericalDelta]
  unfold updDelta
  rw [hdamp]
  simp

/-- Without damping, update() zeroes the pending pan offset. -/
theorem update_noInput_pan (ops : Ops K) (st : CtrlState K)
    (hdamp : st.enableDamping = false) :
    (update ops st).1.panOffset = v3zero := by
  rw [update_fst_panOffset]
  unfold updPan
  rw [hdamp]
  simp

/-- When every recomputed component of updateBase coincides with the
state's own field (and the scale is already 1), updateBase is the
identity, by structure eta. -/
theorem updateBase_eq_self (ops : Ops K) (s : CtrlState K)
    (h1 : updSpherical ops s = s.spherical)
    (h2 : updDelta ops s = s.sphericalDelta)
    (h3 : updPan s = s.panOffset)
    (h4 : updTarget s = s.target)
    (h5 : updPosition ops s = s.position)
    (h6 : updQuat ops s = s.quaternionCam)
    (h7 : s.scale = 1) :
    updateBase ops s = s := by
  unfold updateBase
  rw [h1, h2, h3, h4, h5, h6, ← h7]

/-- With no pending pan and no damping, update() leaves the target alone. -/
theorem updTarget_noPan (st : CtrlState K)
    (hdamp : st.enableDamping = false) (hpan : st.panOffset = v3zero) :
    updTarget st = st.target := by
  unfold updTarget
  rw [hdamp, hpan]
  simp [v3add_zero]

end SettledHelpers

section Settled

/-- With damping and auto-rotate off, no pending deltas, unit scale,
unbounded azimuth, ordered polar bounds, the camera off the target and
any finite maxDistance positive, the state reached by one update() is a
fixed point: the next update() returns it unchanged with result false.
The external lookAt function L may be anything that produces unit
quaternions. -/
theorem settled_fixed_point (L : V3 ℝ → V3 ℝ → Quat ℝ)
    (hL : ∀ p t, qdot (L p t) (L p t) = 1) (st : CtrlState ℝ)
    (hdamp : st.enableDamping = false) (hauto : st.autoRotate = false)
    (hδ : st.sphericalDelta = ⟨0, 0, 0⟩) (hpan : st.panOffset = v3zero)
    (hscale : st.scale = 1)
    (haz1 : st.minAzimuthAngle = none) (haz2 : st.maxAzimuthAngle = none)
    (hpol : st.minPolarAngle ≤ st.maxPolarAngle)
    (hpos : st.position ≠ st.target)
    (hmaxD : ∀ m, st.maxDistance = some m → 0 < m) :
    update (realOps L) ((update (realOps L) st).1) = ((update (realOps L) st).1, false) := by
  have hπ3 := Real.pi_gt_three
  have heps : (EPS : ℝ) = 1 / 1000000 := rfl
  have hepspos : (0 : ℝ) < EPS := by rw [heps]; norm_num
  have hepspi : (EPS : ℝ) ≤ Real.pi - EPS := by rw [heps]; linarith
  obtain ⟨c1, c2, c3, c4, c5, c6, c7, c8, c9, c10, c11, c12, c13, c14⟩ :=
    update_fst_config (realOps L) st
  have hrad0 : 0 < (updSpherical0 (realOps L) st).radius := (updSpherical0_basic L st hpos).1
  have hθ0 : (updSpherical0 (realOps L) st).theta ∈ Set.Ioc (-Real.pi) Real.pi :=
    (updSpherical0_basic L st hpos).2
  have hS1 := updSpherical_noInput L st hdamp hauto hδ hscale haz1 haz2
  set r1 := clampRadius st.minDistance st.maxDistance
    (updSpherical0 (realOps L) st).radius with hr1def
  set φ1 := polarPipeline st.minPolarAngle st.maxPolarAngle Real.pi
    (updSpherical0 (realOps L) st).phi with hφ1def
  set θ1 := (updSpherical0 (realOps L) st).theta with hθ1def
  have hr1pos : 0 < r1 := clampRadius_pos _ _ _ hrad0 hmaxD
  have hφ1lo : (EPS : ℝ) ≤ φ1 := le_max_left _ _
  have hφ1hi : φ1 ≤ Real.pi - EPS := max_le hepspi (min_le_left _ _)
  have hround := sphericalFromV3_fromSpherical L r1 φ1 θ1 hr1pos
    (lt_of_lt_of_le hepspos hφ1lo) (lt_of_le_of_lt hφ1hi (by linarith)) hθ0.1 hθ0.2
  -- fields of the once-updated state
  have htgt0 : updTarget st = st.target := updTarget_noPan st hdamp hpan
  have htgt1 : (update (realOps L) st).1.target = st.target := by
    rw [update_fst_target, htgt0]
  have hpos1 : (update (realOps L) st).1.position =
      v3add st.target (v3FromSpherical (realOps L) ⟨r1, φ1, θ1⟩) := by
    rw [update_fst_position]
    unfold updPosition
    rw [htgt0, hS1]
  have h1damp : (update (realOps L) st).1.enableDamping = false := c1.trans hdamp
  have h1auto : (update (realOps L) st).1.autoRotate = false := c3.trans hauto
  have h1δ : (update (realOps L) st).1.sphericalDelta = ⟨0, 0, 0⟩ :=
    update_noInput_delta _ _ hdamp
  have h1pan : (update (realOps L) st).1.panOffset = v3zero :=
    update_noInput_pan _ _ hdamp
  have h1scale : (update (realOps L) st).1.scale = 1 := update_fst_scale _ _
  have h1az1 : (update (realOps L) st).1.minAzimuthAngle = none := c6.trans haz1
  have h1az2 : (update (realOps L) st).1.maxAzimuthAngle = none := c7.trans haz2
  -- second re-derivation round-trips
  have hoff1 : v3sub (update (realOps L) st).1.position (update (realOps L) st).1.target =
      v3FromSpherical (realOps L) ⟨r1, φ1, θ1⟩ := by
    rw [hpos1, htgt1]
    exact v3add_sub_cancel _ _
  have hs0' : updSpherical0 (realOps L) ((update (realOps L) st).1) = ⟨r1, φ1, θ1⟩ := by
    unfold updSpherical0
    rw [hoff1]
    exact hround
  have hsph2 : updSpherical (realOps L) ((update (realOps L) st).1) = ⟨r1, φ1, θ1⟩ := by
    rw [updSpherical_noInput L _ h1damp h1auto h1δ h1scale h1az1 h1az2, hs0']
    dsimp only
    rw [c10, c11, c8, c9]
    ext
    · exact clampRadius_idem _ _ _
    · exact polarPipeline_idem _ _ hpol _
    · rfl
  have htgt2 : updTarget ((update (realOps L) st).1) = (update (realOps L) st).1.target :=
    updTarget_noPan _ h1damp h1pan
  have hpos2 : updPosition (realOps L) ((update (realOps L) st).1) =
      (update (realOps L) st).1.position := by
    unfold updPosition
    rw [htgt2, hsph2, htgt1, hpos1]
  have hq1 : (update (realOps L) st).1.quaternionCam =
      L (update (realOps L) st).1.position (update (realOps L) st).1.target := by
    rw [update_fst_quaternionCam]
    unfold updQuat
    rw [show (realOps L).lookQuat = L from rfl, ← update_fst_position, ← update_fst_target]
  have hq2 : updQuat (realOps L) ((update (realOps L) st).1) =
      (update (realOps L) st).1.quaternionCam := by
    unfold updQuat
    rw [show (realOps L).lookQuat = L from rfl, hpos2, htgt2, hq1]
  -- the change condition fails on the second update
  have hnotchanged : ¬ updChangedProp (realOps L) ((update (realOps L) st).1) := by
    unfold updChangedProp
    push_neg
    refine ⟨?_, ?_, ?_⟩
    · rw [update_fst_zoomChanged]
      simp
    · rw [hpos2]
      rcases update_last_spec (realOps L) st with hA | hB
      · rw [hA.1, update_fst_position, dist2_self]
        exact hepspos.le
      · rw [hB.2.1, update_fst_position]
        have hB1 := hB.1
        unfold updChangedProp at hB1
        push_neg at hB1
        exact hB1.2.1
    · rw [hq2]
      rcases update_last_spec (realOps L) st with hA | hB
      · rw [hA.2, update_fst_quaternionCam]
        have hone : qdot (updQuat (realOps L) st) (updQuat (realOps L) st) = 1 := hL _ _
        rw [hone]
        norm_num
        exact hepspos.le
      · rw [hB.2.2, update_fst_quaternionCam]
        have hB1 := hB.1
        unfold updChangedProp at hB1
        push_neg at hB1
        exact hB1.2.2
  -- the second updateBase is the identity on the once-updated state
  have hsphF : updSpherical (realOps L) ((update (realOps L) st).1) =
      (update (realOps L) st).1.spherical := by
    rw [hsph2, update_fst_spherical, hS1]
  have hδF : updDelta (realOps L) ((update (realOps L) st).1) =
      (update (realOps L) st).1.sphericalDelta := by
    unfold updDelta
    rw [h1damp, h1δ]
    simp
  have hpanF : updPan ((update (realOps L) st).1) = (update (realOps L) st).1.panOffset := by
    unfold updPan
    rw [h1damp, h1pan]
    simp
  have hbase : updateBase (realOps L) ((update (realOps L) st).1) =
      (update (realOps L) st).1 :=
    updateBase_eq_self _ _ hsphF hδF hpanF htgt2 hpos2 hq2 h1scale
  rw [update_of_not_changed _ _ hnotchanged, hbase]

end Settled

/-- The constant lookAt stand-in produces unit quaternions. -/
theorem unitL_unit : ∀ p t, qdot (unitL p t) (unitL p t) = 1 := by
  intro p t
  unfold qdot unitL
  norm_num

section ClaimC5

/-- C5: with damping disabled and no pending input (and the default
unbounded azimuth, ordered polar bounds, positive finite maxDistance if
any, camera off target), the state after the first settling update() is a
fixed point: every further update() leaves the camera position and the
Target unchanged and returns changed = false. -/
theorem C5_no_input_settles (L : V3 ℝ → V3 ℝ → Quat ℝ)
    (hL : ∀ p t, qdot (L p t) (L p t) = 1) (st : CtrlState ℝ)
    (hdamp : st.enableDamping = false) (hauto : st.autoRotate = false)
    (hδ : st.sphericalDelta = ⟨0, 0, 0⟩) (hpan : st.panOffset = v3zero)
    (hscale : st.scale = 1)
    (haz1 : st.minAzimuthAngle = none) (haz2 : st.maxAzimuthAngle = none)
    (hpol : st.minPolarAngle ≤ st.maxPolarAngle)
    (hpos : st.position ≠ st.target)
    (hmaxD : ∀ m, st.maxDistance = some m → 0 < m) :
    (update (realOps L) ((update (realOps L) st).1)).1.position =
      (update (realOps L) st).1.position ∧
    (update (realOps L) ((update (realOps L) st).1)).1.target =
      (update (realOps L) st).1.target ∧
    (update (realOps L) ((update (realOps L) st).1)).2 = false ∧
    ∀ k : ℕ, (fun s => (update (realOps L) s).1)^[k] ((update (realOps L) st).1) =
      (update (realOps L) st).1 := by
  have h := settled_fixed_point L hL st hdamp hauto hδ hpan hscale haz1 haz2 hpol hpos hmaxD
  have h1 : (update (realOps L) ((update (realOps L) st).1)).1 = (update (realOps L) st).1 := by
    rw [h]
  refine ⟨by rw [h1], by rw [h1], by rw [h], ?_⟩
  intro k
  induction k with
  | zero => rfl
  | succ n ih => rw [Function.iterate_succ_apply', ih, h1]

/-- C5 witness: the default perspective state at distance 5. -/
theorem C5_witness :
    ((mkState Real.pi (⟨0, 0, 5⟩ : V3 ℝ)).enableDamping = false ∧
      (mkState Real.pi (⟨0, 0, 5⟩ : V3 ℝ)).position ≠ (mkState Real.pi ⟨0, 0, 5⟩).target) ∧
    (update (realOps unitL) ((update (realOps unitL) (mkState Real.pi ⟨0, 0, 5⟩)).1)).2 =
      false := by
  have hpos : (mkState Real.pi (⟨0, 0, 5⟩ : V3 ℝ)).position ≠
      (mkState Real.pi ⟨0, 0, 5⟩).target := by
    intro h
    have hz := congrArg V3.z h
    simp [mkState, v3zero] at hz
  refine ⟨⟨rfl, hpos⟩, ?_⟩
  exact (C5_no_input_settles unitL unitL_unit (mkState Real.pi ⟨0, 0, 5⟩) rfl rfl rfl rfl rfl
    rfl rfl Real.pi_pos.le hpos (fun m hm => by simp [mkState] at hm)).2.2.1

end ClaimC5

section ClaimC10

/-- dolly() on an orthographic camera sets the zoomChanged flag and leaves
every field other than zoom untouched. -/
theorem dolly_ortho_fields {K : Type} [LinearOrderedField K] [DecidableEq K]
    (dscale : K) (b : Bool) (st : CtrlState K) (hp : st.isPerspective = false) :
    (dolly dscale b st).zoomChanged = true ∧
    (dolly dscale b st).isPerspective = false ∧
    (dolly dscale b st).enableDamping = st.enableDamping ∧
    (dolly dscale b st).autoRotate = st.autoRotate ∧
    (dolly dscale b st).sphericalDelta = st.sphericalDelta ∧
    (dolly dscale b st).panOffset = st.panOffset ∧
    (dolly dscale b st).scale = st.scale ∧
    (dolly dscale b st).minAzimuthAngle = st.minAzimuthAngle ∧
    (dolly dscale b st).maxAzimuthAngle = st.maxAzimuthAngle ∧
    (dolly dscale b st).minPolarAngle = st.minPolarAngle ∧
    (dolly dscale b st).maxPolarAngle = st.maxPolarAngle ∧
    (dolly dscale b st).position = st.position ∧
    (dolly dscale b st).target = st.target ∧
    (dolly dscale b st).minDistance = st.minDistance ∧
    (dolly dscale b st).maxDistance = st.maxDistance := by
  unfold dolly
  dsimp only
  rw [hp]
  rw [if_neg (by simp)]
  exact ⟨rfl, rfl, rfl, rfl, rfl, rfl, rfl, rfl, rfl, rfl, rfl, rfl, rfl, rfl, rfl⟩

/-- update() reports a change whenever the zoomChanged flag is set. -/
theorem update_true_of_zoomChanged {K : Type} [LinearOrderedField K] [DecidableEq K]
    (ops : Ops K) (st : CtrlState K) (hz : st.zoomChanged = true) :
    (update ops st).2 = true := by
  have h : updChangedProp ops st := by
    unfold updChangedProp
    exact Or.inl hz
  unfold update
  rw [if_pos h]

/-- C10: after an orthographic dolly, the next update() returns true even
though only the zoom changed (no position/orientation movement is
required), the flag is cleared by that update(), and — absent further
input — the update() after that returns false. -/
theorem C10_ortho_zoom_change_flag (L : V3 ℝ → V3 ℝ → Quat ℝ)
    (hL : ∀ p t, qdot (L p t) (L p t) = 1) (st : CtrlState ℝ) (dscale : ℝ) (b : Bool)
    (hp : st.isPerspective = false)
    (hdamp : st.enableDamping = false) (hauto : st.autoRotate = false)
    (hδ : st.sphericalDelta = ⟨0, 0, 0⟩) (hpan : st.panOffset = v3zero)
    (hscale : st.scale = 1)
    (haz1 : st.minAzimuthAngle = none) (haz2 : st.maxAzimuthAngle = none)
    (hpol : st.minPolarAngle ≤ st.maxPolarAngle)
    (hpos : st.position ≠ st.target)
    (hmaxD : ∀ m, st.maxDistance = some m → 0 < m) :
    (update (realOps L) (dolly dscale b st)).2 = true ∧
    (update (realOps L) (dolly dscale b st)).1.zoomChanged = false ∧
    update (realOps L) ((update (realOps L) (dolly dscale b st)).1) =
      ((update (realOps L) (dolly dscale b st)).1, false) := by
  obtain ⟨d1, d2, d3, d4, d5, d6, d7, d8, d9, d10, d11, d12, d13, d14, d15⟩ :=
    dolly_ortho_fields dscale b st hp
  refine ⟨update_true_of_zoomChanged _ _ d1, update_fst_zoomChanged _ _, ?_⟩
  exact settled_fixed_point L hL (dolly dscale b st)
    (d3.trans hdamp) (d4.trans hauto) (d5.trans hδ) (d6.trans hpan) (d7.trans hscale)
    (d8.trans haz1) (d9.trans haz2) (by rw [d10, d11]; exact hpol)
    (by rw [d12, d13]; exact hpos) (fun m hm => hmaxD m (d15 ▸ hm))

/-- An orthographic controller state with the source defaults. -/
noncomputable def orthoState : CtrlState ℝ :=
  { mkState Real.pi ⟨0, 0, 5⟩ with isPerspective := false }

/-- C10 witness: a unit dolly on the concrete orthographic state. -/
theorem C10_witness :
    (orthoState.isPerspective = false ∧ orthoState.enableDamping = false) ∧
    (update (realOps unitL) (dolly 1 false orthoState)).2 = true := by
  have hpos : orthoState.position ≠ orthoState.target := by
    intro h
    have hz := congrArg V3.z h
    simp [orthoState, mkState, v3zero] at hz
  refine ⟨⟨rfl, rfl⟩, ?_⟩
  exact (C10_ortho_zoom_change_flag unitL unitL_unit orthoState 1 false rfl rfl rfl rfl rfl
    rfl rfl rfl Real.pi_pos.le hpos (fun m hm => by simp [orthoState, mkState] at hm)).1

end ClaimC10

end Orbit
